import Mathlib

/-!
Verification of the fingerprint persistence / merge engine and session
lifecycle supervisor of `antidetect_playwright` (`gui/launcher.py`,
`gui/app.py`, `gui/models.py`).

The development shallowly embeds:
  * the JSON documents that `orjson.loads` / `orjson.dumps` move through the
    `CAMOU_CONFIG_*` transport slots (`Json`, `orjsonDumps`, `orjsonLoads`);
  * the env rewrite `_remove_screen_window_keys_from_env` (chunk collection,
    reassembly, key filtering, re-serialization, re-chunking);
  * the fingerprint resolve step inlined in `launch_profile` (record load /
    OS-change regeneration / fresh generation, geo fold-in, noise pinning);
  * the session tables and status callbacks of `BrowserLauncher` and the
    relevant callers in `gui/app.py`.

Machine integers do not overflow in the modelled code paths, so numbers are
`Int`/`Nat`.  Latitude/longitude are floats in the source; only their Python
truthiness (absent-or-zero versus non-zero) and verbatim pass-through are
observable in the modelled code, so they are embedded as `Option Int`.
-/

/-! ### JSON values

The JSON documents handled by `_remove_screen_window_keys_from_env` are the
Camoufox launch configs: objects with dotted string keys and scalar values.
`orjson` parses/serializes full JSON; the embedding covers null, booleans,
integers, strings (with the common escapes), arrays and objects, which is the
fragment the launch configs inhabit. -/

inductive Json where
  | null : Json
  | bool (b : Bool) : Json
  | num (n : Int) : Json
  | str (s : String) : Json
  | arr (items : List Json) : Json
  | obj (fields : List (String × Json)) : Json

/-! ### Serialization (`orjson.dumps`): compact, no whitespace -/

/-- Character of a decimal digit `d < 10`. -/
def digitCh (d : Nat) : Char := Char.ofNat (48 + d)

/-- Fuel-driven digit expansion (structural, so it reduces by `rfl`); any
`fuel > n` yields the digit characters of `n`, most significant first. -/
def natChGo (fuel n : Nat) : List Char :=
  match fuel with
  | 0 => []
  | f + 1 => if n < 10 then [digitCh n] else natChGo f (n / 10) ++ [digitCh (n % 10)]

/-- Decimal digit characters of a natural number, most significant first. -/
def natCh (n : Nat) : List Char := natChGo (n + 1) n

/-- Characters of an integer: optional minus sign, then decimal digits. -/
def intCh (i : Int) : List Char :=
  if i < 0 then '-' :: natCh i.natAbs else natCh i.natAbs

/-- JSON escape of one character (quote, backslash and the common control
characters; other characters are emitted verbatim). -/
def escCh (c : Char) : List Char :=
  if c = '"' then ['\\', '"']
  else if c = '\\' then ['\\', '\\']
  else if c = '\n' then ['\\', 'n']
  else if c = '\t' then ['\\', 't']
  else if c = '\r' then ['\\', 'r']
  else [c]

/-- JSON escape of a character list. -/
def escL : List Char → List Char
  | [] => []
  | c :: t => escCh c ++ escL t

/-- A serialized JSON string: quote, escaped body, quote. -/
def strCh (s : String) : List Char := '"' :: (escL s.data ++ ['"'])

mutual
/-- Compact serialization of a JSON value (as `orjson.dumps` emits it). -/
def jdump : Json → List Char
  | .null => "null".data
  | .bool b => if b then "true".data else "false".data
  | .num n => intCh n
  | .str s => strCh s
  | .arr items => '[' :: (jdumpItems items ++ [']'])
  | .obj fields => '{' :: (jdumpFields fields ++ ['}'])

/-- Comma-separated serialization of array items. -/
def jdumpItems : List Json → List Char
  | [] => []
  | v :: t => jdump v ++ jdumpItemsNext t

/-- Tail items, each preceded by a comma. -/
def jdumpItemsNext : List Json → List Char
  | [] => []
  | v :: t => ',' :: (jdump v ++ jdumpItemsNext t)

/-- Comma-separated serialization of object members. -/
def jdumpFields : List (String × Json) → List Char
  | [] => []
  | (k, v) :: t => strCh k ++ ':' :: (jdump v ++ jdumpFieldsNext t)

/-- Tail members, each preceded by a comma. -/
def jdumpFieldsNext : List (String × Json) → List Char
  | [] => []
  | (k, v) :: t => ',' :: (strCh k ++ ':' :: (jdump v ++ jdumpFieldsNext t))
end

/-- Entry point matching `orjson.dumps(config).decode("utf-8")`. -/
def orjsonDumps (v : Json) : List Char := jdump v

/-! ### Parsing (`orjson.loads`) -/

/-- JSON whitespace. -/
def wsCh (c : Char) : Bool := c = ' ' || c = '\n' || c = '\t' || c = '\r'

/-- Drop leading JSON whitespace. -/
def wsDrop : List Char → List Char
  | [] => []
  | c :: t => if wsCh c then wsDrop t else c :: t

/-- Decimal digit test. -/
def digCh (c : Char) : Bool := '0' ≤ c && c ≤ '9'

/-- Split off the maximal leading run of decimal digits. -/
def digSpan : List Char → List Char × List Char
  | [] => ([], [])
  | c :: t =>
    if digCh c then
      let (ds, r) := digSpan t
      (c :: ds, r)
    else ([], c :: t)

/-- Numeric value of a digit-character run. -/
def digVal (ds : List Char) : Nat :=
  List.foldl (fun a c => a * 10 + (c.toNat - 48)) 0 ds

/-- Parse an integer literal (optional minus sign, one or more digits). -/
def pInt : List Char → Option (Int × List Char)
  | '-' :: t =>
    match digSpan t with
    | ([], _) => none
    | (ds, r) => some (-(digVal ds : Int), r)
  | cs =>
    match digSpan cs with
    | ([], _) => none
    | (ds, r) => some ((digVal ds : Int), r)

/-- Un-escape one escaped character (the escapes `escCh` can emit). -/
def unescCh (c : Char) : Option Char :=
  if c = '"' then some '"'
  else if c = '\\' then some '\\'
  else if c = 'n' then some '\n'
  else if c = 't' then some '\t'
  else if c = 'r' then some '\r'
  else none

/-- Parse a string body after the opening quote, accumulating in reverse
(fuel-driven so it is structural; one unit of fuel per produced character). -/
def pStrGo (fuel : Nat) (acc : List Char) (cs : List Char) : Option (String × List Char) :=
  match fuel with
  | 0 => none
  | f + 1 =>
    match cs with
    | [] => none
    | c :: r =>
      if c = '"' then some (String.mk acc.reverse, r)
      else if c = '\\' then
        match r with
        | [] => none
        | e :: r' =>
          match unescCh e with
          | some x => pStrGo f (x :: acc) r'
          | none => none
      else pStrGo f (c :: acc) r

/-- Parse a string literal positioned after its opening quote. -/
def pStr (cs : List Char) : Option (String × List Char) := pStrGo (cs.length + 1) [] cs

mutual
/-- Fuel-indexed JSON value parser (leading whitespace allowed). -/
def pVal : Nat → List Char → Option (Json × List Char)
  | 0, _ => none
  | fuel + 1, cs =>
    match wsDrop cs with
    | 'n' :: 'u' :: 'l' :: 'l' :: r => some (.null, r)
    | 't' :: 'r' :: 'u' :: 'e' :: r => some (.bool true, r)
    | 'f' :: 'a' :: 'l' :: 's' :: 'e' :: r => some (.bool false, r)
    | '"' :: r =>
      match pStr r with
      | some (s, r') => some (.str s, r')
      | none => none
    | '[' :: r =>
      match wsDrop r with
      | [] => none
      | c :: r' =>
        if c = ']' then some (.arr [], r')
        else
          match pItems fuel (c :: r') with
          | some (vs, r'') => some (.arr vs, r'')
          | none => none
    | '{' :: r =>
      match wsDrop r with
      | [] => none
      | c :: r' =>
        if c = '}' then some (.obj [], r')
        else
          match pFields fuel (c :: r') with
          | some (fs, r'') => some (.obj fs, r'')
          | none => none
    | c :: r =>
      if c = '-' || digCh c then
        match pInt (c :: r) with
        | some (n, r') => some (.num n, r')
        | none => none
      else none
    | [] => none

/-- One or more comma-separated array items, consuming the closing bracket. -/
def pItems : Nat → List Char → Option (List Json × List Char)
  | 0, _ => none
  | fuel + 1, cs =>
    match pVal fuel cs with
    | none => none
    | some (v, r) =>
      match wsDrop r with
      | ',' :: r' =>
        match pItems fuel r' with
        | some (vs, r'') => some (v :: vs, r'')
        | none => none
      | ']' :: r' => some ([v], r')
      | _ => none

/-- One or more comma-separated object members, consuming the closing brace. -/
def pFields : Nat → List Char → Option (List (String × Json) × List Char)
  | 0, _ => none
  | fuel + 1, cs =>
    match wsDrop cs with
    | '"' :: r =>
      match pStr r with
      | none => none
      | some (k, r1) =>
        match wsDrop r1 with
        | ':' :: r2 =>
          match pVal fuel r2 with
          | none => none
          | some (v, r3) =>
            match wsDrop r3 with
            | ',' :: r4 =>
              match pFields fuel r4 with
              | some (fs, r5) => some ((k, v) :: fs, r5)
              | none => none
            | '}' :: r4 => some ([(k, v)], r4)
            | _ => none
        | _ => none
    | _ => none
end

/-- Entry point matching `orjson.loads` on the full input (trailing whitespace
allowed, trailing garbage rejected). -/
def orjsonLoads (cs : List Char) : Option Json :=
  match pVal (cs.length + 1) cs with
  | some (v, r) => if wsDrop r = [] then some v else none
  | none => none

/-! ### Round trip: digits and integers -/

theorem digitCh_isDig {d : Nat} (h : d < 10) : digCh (digitCh d) = true := by
  interval_cases d <;> decide

theorem digitCh_toNat {d : Nat} (h : d < 10) : (digitCh d).toNat - 48 = d := by
  interval_cases d <;> decide

theorem natChGo_irrel {n : Nat} :
    ∀ f₁ f₂ : Nat, n < f₁ → n < f₂ → natChGo f₁ n = natChGo f₂ n := by
  induction n using Nat.strong_induction_on with
  | _ n ih =>
    intro f₁ f₂ h₁ h₂
    match f₁, f₂ with
    | g₁ + 1, g₂ + 1 =>
      simp only [natChGo]
      by_cases hn : n < 10
      · simp [hn]
      · have hq : n / 10 < n := Nat.div_lt_self (by omega) (by omega)
        simp only [if_neg hn]
        rw [ih (n / 10) hq g₁ g₂ (by omega) (by omega)]

theorem natCh_unfold (n : Nat) :
    natCh n = if n < 10 then [digitCh n] else natCh (n / 10) ++ [digitCh (n % 10)] := by
  by_cases hn : n < 10
  · simp [natCh, natChGo, hn]
  · have hq : n / 10 < n := Nat.div_lt_self (by omega) (by omega)
    have h1 : natChGo (n + 1) n = natChGo n (n / 10) ++ [digitCh (n % 10)] := by
      simp only [natChGo]
      rw [if_neg hn]
    have h2 := natChGo_irrel (n := n / 10) n (n / 10 + 1) hq (by omega)
    rw [if_neg hn, natCh, natCh, h1, h2]

theorem natCh_ne_nil (n : Nat) : natCh n ≠ [] := by
  rw [natCh_unfold]
  by_cases hn : n < 10 <;> simp [hn]

theorem natCh_all_dig (n : Nat) : ∀ c ∈ natCh n, digCh c = true := by
  induction n using Nat.strong_induction_on with
  | _ n ih =>
    rw [natCh_unfold]
    by_cases hn : n < 10
    · simp only [if_pos hn, List.mem_singleton]
      rintro c rfl
      exact digitCh_isDig hn
    · simp only [if_neg hn, List.mem_append, List.mem_singleton]
      rintro c (hc | rfl)
      · exact ih (n / 10) (Nat.div_lt_self (by omega) (by omega)) c hc
      · exact digitCh_isDig (Nat.mod_lt _ (by omega))

theorem natCh_head (n : Nat) : ∃ d t, d < 10 ∧ natCh n = digitCh d :: t := by
  induction n using Nat.strong_induction_on with
  | _ n ih =>
    rw [natCh_unfold]
    by_cases hn : n < 10
    · exact ⟨n, [], hn, by simp [hn]⟩
    · obtain ⟨d, t, hd, ht⟩ := ih (n / 10) (Nat.div_lt_self (by omega) (by omega))
      exact ⟨d, t ++ [digitCh (n % 10)], hd, by simp [hn, ht]⟩

theorem digVal_natCh (n : Nat) : digVal (natCh n) = n := by
  induction n using Nat.strong_induction_on with
  | _ n ih =>
    rw [natCh_unfold]
    by_cases hn : n < 10
    · simp only [if_pos hn, digVal, List.foldl_cons, List.foldl_nil]
      rw [digitCh_toNat hn]
      omega
    · simp only [if_neg hn, digVal, List.foldl_append, List.foldl_cons, List.foldl_nil]
      have := ih (n / 10) (Nat.div_lt_self (by omega) (by omega))
      simp only [digVal] at this
      rw [this, digitCh_toNat (Nat.mod_lt _ (by omega))]
      omega

/-- First character of the remainder is not a digit (so a digit run cannot
continue into it). -/
def noDigHead : List Char → Bool
  | [] => true
  | c :: _ => !digCh c

theorem digSpan_stop {r : List Char} (hr : noDigHead r = true) : digSpan r = ([], r) := by
  match r with
  | [] => rfl
  | c :: t =>
    simp only [noDigHead, Bool.not_eq_true'] at hr
    simp [digSpan, hr]

theorem digSpan_run (ds : List Char) (hds : ∀ c ∈ ds, digCh c = true)
    (r : List Char) (hr : noDigHead r = true) : digSpan (ds ++ r) = (ds, r) := by
  induction ds with
  | nil => simpa using digSpan_stop hr
  | cons c t ih =>
    have hc : digCh c = true := hds c (by simp)
    have ht := ih (fun x hx => hds x (by simp [hx]))
    simp [digSpan, hc, ht]

theorem pInt_intCh (i : Int) (r : List Char) (hr : noDigHead r = true) :
    pInt (intCh i ++ r) = some (i, r) := by
  by_cases hi : i < 0
  · have harg : intCh i ++ r = '-' :: (natCh i.natAbs ++ r) := by
      simp [intCh, hi]
    rw [harg]
    simp only [pInt]
    rw [digSpan_run _ (natCh_all_dig _) _ hr]
    have hne := natCh_ne_nil i.natAbs
    match hh : natCh i.natAbs with
    | [] => exact absurd hh hne
    | c :: t =>
      simp only []
      rw [← hh, digVal_natCh]
      have : -(i.natAbs : Int) = i := by omega
      rw [this]
  · obtain ⟨d, t, hd, ht⟩ := natCh_head i.natAbs
    have harg : intCh i ++ r = digitCh d :: (t ++ r) := by
      simp [intCh, hi, ht]
    have hnd : ¬ digitCh d = '-' := by interval_cases d <;> decide
    rw [harg, pInt.eq_def]
    have hspan : digSpan (digitCh d :: (t ++ r)) = (digitCh d :: t, r) := by
      have := digSpan_run (natCh i.natAbs) (natCh_all_dig _) r hr
      rw [ht] at this
      simpa using this
    split
    · rename_i heq
      simp only [List.cons.injEq] at heq
      exact absurd heq.1 hnd
    · rw [hspan]
      simp only []
      rw [show digitCh d :: t = natCh i.natAbs from ht.symm, digVal_natCh]
      have : (i.natAbs : Int) = i := by omega
      rw [this]

/-! ### Round trip: strings -/

theorem pStrGo_esc (f : Nat) (c : Char) (acc r : List Char) :
    pStrGo (f + 1) acc (escCh c ++ r) = pStrGo f (c :: acc) r := by
  by_cases h1 : c = '"'
  · subst h1; simp [escCh, pStrGo, unescCh]
  by_cases h2 : c = '\\'
  · subst h2; simp [escCh, pStrGo, unescCh]
  by_cases h3 : c = '\n'
  · subst h3; simp [escCh, pStrGo, unescCh]
  by_cases h4 : c = '\t'
  · subst h4; simp [escCh, pStrGo, unescCh]
  by_cases h5 : c = '\r'
  · subst h5; simp [escCh, pStrGo, unescCh]
  · simp [escCh, h1, h2, h3, h4, h5, pStrGo]

theorem pStrGo_escL (s : List Char) :
    ∀ fuel acc r, s.length < fuel →
      pStrGo fuel acc (escL s ++ '"' :: r) = some (String.mk (acc.reverse ++ s), r) := by
  induction s with
  | nil =>
    intro fuel acc r hf
    match fuel, hf with
    | f + 1, _ => simp [escL, pStrGo]
  | cons c t ih =>
    intro fuel acc r hf
    match fuel, hf with
    | f + 1, hf' =>
      rw [escL, List.append_assoc, pStrGo_esc, ih f (c :: acc) r (by simpa using hf')]
      simp

theorem escL_length (s : List Char) : s.length ≤ (escL s).length := by
  induction s with
  | nil => simp [escL]
  | cons c t ih =>
    have : 1 ≤ (escCh c).length := by
      simp only [escCh]
      repeat' split
      all_goals simp
    simp only [escL, List.length_append, List.length_cons]
    omega

theorem pStr_round (s : String) (r : List Char) :
    pStr (escL s.data ++ '"' :: r) = some (s, r) := by
  have hlen : s.data.length < (escL s.data ++ '"' :: r).length + 1 := by
    have := escL_length s.data
    simp only [List.length_append, List.length_cons]
    omega
  rw [pStr, pStrGo_escL s.data _ [] r hlen]
  simp

/-! ### Round trip: head shapes of serialized values -/

theorem digitCh_shape {d : Nat} (h : d < 10) :
    wsCh (digitCh d) = false ∧ digitCh d ≠ ']' ∧ digitCh d ≠ '}' ∧ digitCh d ≠ ',' ∧
      digitCh d ≠ '-' ∧ digitCh d ≠ 'n' ∧ digitCh d ≠ 't' ∧ digitCh d ≠ 'f' ∧
      digitCh d ≠ '"' ∧ digitCh d ≠ '[' ∧ digitCh d ≠ '{' := by
  interval_cases d <;> refine ⟨by decide, by decide, by decide, by decide, by decide,
    by decide, by decide, by decide, by decide, by decide, by decide⟩

theorem jdump_head (v : Json) :
    ∃ c t, jdump v = c :: t ∧ wsCh c = false ∧ c ≠ ']' ∧ c ≠ '}' ∧ c ≠ ',' := by
  match v with
  | .null => exact ⟨'n', _, rfl, by decide, by decide, by decide, by decide⟩
  | .bool true => exact ⟨'t', _, rfl, by decide, by decide, by decide, by decide⟩
  | .bool false => exact ⟨'f', _, rfl, by decide, by decide, by decide, by decide⟩
  | .str s => exact ⟨'"', _, rfl, by decide, by decide, by decide, by decide⟩
  | .arr items => exact ⟨'[', _, rfl, by decide, by decide, by decide, by decide⟩
  | .obj fields => exact ⟨'{', _, rfl, by decide, by decide, by decide, by decide⟩
  | .num i =>
    by_cases hi : i < 0
    · refine ⟨'-', natCh i.natAbs, ?_, by decide, by decide, by decide, by decide⟩
      simp [jdump, intCh, hi]
    · obtain ⟨d, t, hd, ht⟩ := natCh_head i.natAbs
      obtain ⟨hw, hr, hb, hc, _⟩ := digitCh_shape hd
      refine ⟨digitCh d, t, ?_, hw, hr, hb, hc⟩
      simp [jdump, intCh, hi, ht]

theorem jdump_ne_nil (v : Json) : jdump v ≠ [] := by
  obtain ⟨c, t, h, _⟩ := jdump_head v
  simp [h]

theorem wsDrop_not_ws {c : Char} (h : wsCh c = false) (t : List Char) :
    wsDrop (c :: t) = c :: t := by
  simp [wsDrop, h]

theorem wsDrop_jdump (v : Json) (r : List Char) :
    wsDrop (jdump v ++ r) = jdump v ++ r := by
  obtain ⟨c, t, h, hw, _⟩ := jdump_head v
  rw [h, List.cons_append, wsDrop_not_ws hw]

/-! ### Round trip: number entry into the parser -/

/-- A remainder that cannot extend a serialized value: empty or starting with a
separator/closer.  Every position where `jdump` places a value ends this way. -/
def stopOk : List Char → Bool
  | [] => true
  | c :: _ => c = ',' || c = ']' || c = '}'

theorem stopOk_noDigHead {r : List Char} (h : stopOk r = true) : noDigHead r = true := by
  match r with
  | [] => rfl
  | c :: t =>
    simp only [stopOk, Bool.or_eq_true, decide_eq_true_eq] at h
    rcases h with (rfl | rfl) | rfl <;> rfl

theorem pVal_take_num (f : Nat) (c : Char) (rest : List Char)
    (hws : wsCh c = false) (h1 : c ≠ 'n') (h2 : c ≠ 't') (h3 : c ≠ 'f')
    (h4 : c ≠ '"') (h5 : c ≠ '[') (h6 : c ≠ '{')
    (hdig : (c = '-' || digCh c) = true) :
    pVal (f + 1) (c :: rest)
      = match pInt (c :: rest) with
        | some (n, r') => some (.num n, r')
        | none => none := by
  simp only [pVal]
  rw [wsDrop_not_ws hws]
  simp [h1, h2, h3, h4, h5, h6, hdig]

theorem pVal_num (f : Nat) (i : Int) (r : List Char) (hr : noDigHead r = true) :
    pVal (f + 1) (intCh i ++ r) = some (.num i, r) := by
  by_cases hi : i < 0
  · have harg : intCh i ++ r = '-' :: (natCh i.natAbs ++ r) := by simp [intCh, hi]
    rw [harg, pVal_take_num f '-' _ (by decide) (by decide) (by decide) (by decide)
      (by decide) (by decide) (by decide) (by decide), ← harg, pInt_intCh i r hr]
  · obtain ⟨d, t, hd, ht⟩ := natCh_head i.natAbs
    have harg : intCh i ++ r = digitCh d :: (t ++ r) := by simp [intCh, hi, ht]
    obtain ⟨hw, _, _, _, _, hn', ht', hf', hq', hlb, hlc⟩ := digitCh_shape hd
    rw [harg, pVal_take_num f (digitCh d) _ hw hn' ht' hf' hq' hlb hlc
      (by simp [digitCh_isDig hd]), ← harg, pInt_intCh i r hr]

/-! ### Round trip: the main induction on fuel -/

theorem jdump_length_pos (v : Json) : 0 < (jdump v).length := by
  obtain ⟨c, t, h, _⟩ := jdump_head v
  simp [h]

theorem rtAll : ∀ fuel : Nat,
    (∀ v r, (jdump v).length < fuel → stopOk r = true →
      pVal fuel (jdump v ++ r) = some (v, r)) ∧
    (∀ v vs r, (jdumpItems (v :: vs)).length + 1 < fuel →
      pItems fuel (jdumpItems (v :: vs) ++ ']' :: r) = some (v :: vs, r)) ∧
    (∀ k w fs r, (jdumpFields ((k, w) :: fs)).length + 1 < fuel →
      pFields fuel (jdumpFields ((k, w) :: fs) ++ '}' :: r) = some ((k, w) :: fs, r)) := by
  intro fuel
  induction fuel with
  | zero =>
    refine ⟨fun v r h _ => absurd h (by omega), fun v vs r h => absurd h (by omega),
      fun k w fs r h => absurd h (by omega)⟩
  | succ f ih =>
    obtain ⟨ihV, ihI, ihF⟩ := ih
    refine ⟨?_, ?_, ?_⟩
    · -- values
      intro v r hlen hstop
      match v with
      | .null => rfl
      | .bool true => rfl
      | .bool false => rfl
      | .num i => exact pVal_num f i r (stopOk_noDigHead hstop)
      | .str s =>
        have harg : jdump (.str s) ++ r = '"' :: (escL s.data ++ '"' :: r) := by
          simp [jdump, strCh]
        rw [harg]
        have hstep : pVal (f + 1) ('"' :: (escL s.data ++ '"' :: r))
            = match pStr (escL s.data ++ '"' :: r) with
              | some (s', r') => some (.str s', r')
              | none => none := rfl
        rw [hstep, pStr_round]
      | .arr [] => rfl
      | .arr (v₀ :: vs) =>
        have harr : jdump (.arr (v₀ :: vs)) ++ r
            = '[' :: (jdumpItems (v₀ :: vs) ++ ']' :: r) := by
          simp [jdump]
        obtain ⟨c, t, hct, hwsc, hner, _, _⟩ := jdump_head v₀
        have hitems : jdumpItems (v₀ :: vs) ++ ']' :: r
            = c :: (t ++ (jdumpItemsNext vs ++ ']' :: r)) := by
          simp [jdumpItems, hct]
        have hstep : pVal (f + 1) ('[' :: (jdumpItems (v₀ :: vs) ++ ']' :: r))
            = match wsDrop (jdumpItems (v₀ :: vs) ++ ']' :: r) with
              | [] => none
              | c' :: r' =>
                if c' = ']' then some (.arr [], r')
                else
                  match pItems f (c' :: r') with
                  | some (vs', r'') => some (.arr vs', r'')
                  | none => none := rfl
        have hws : wsDrop (jdumpItems (v₀ :: vs) ++ ']' :: r)
            = jdumpItems (v₀ :: vs) ++ ']' :: r := by
          rw [hitems, wsDrop_not_ws hwsc]
        have hfuel : (jdumpItems (v₀ :: vs)).length + 1 < f := by
          have hlen2 : (jdump (.arr (v₀ :: vs))).length
              = (jdumpItems (v₀ :: vs)).length + 2 := by
            simp [jdump]
          omega
        have hi := ihI v₀ vs r hfuel
        rw [harr, hstep, hws, hitems]
        show (if c = ']' then some (Json.arr [], t ++ (jdumpItemsNext vs ++ ']' :: r))
              else
                match pItems f (c :: (t ++ (jdumpItemsNext vs ++ ']' :: r))) with
                | some (vs', r'') => some (Json.arr vs', r'')
                | none => none) = some (Json.arr (v₀ :: vs), r)
        rw [if_neg hner, ← hitems, hi]
      | .obj [] => rfl
      | .obj ((k, w) :: fs) =>
        have hobj : jdump (.obj ((k, w) :: fs)) ++ r
            = '{' :: (jdumpFields ((k, w) :: fs) ++ '}' :: r) := by
          simp [jdump]
        have hflds : jdumpFields ((k, w) :: fs) ++ '}' :: r
            = '"' :: ((escL k.data ++ '"' :: (':' :: (jdump w ++ jdumpFieldsNext fs)))
                ++ '}' :: r) := by
          simp [jdumpFields, strCh]
        have hstep : pVal (f + 1) ('{' :: (jdumpFields ((k, w) :: fs) ++ '}' :: r))
            = match wsDrop (jdumpFields ((k, w) :: fs) ++ '}' :: r) with
              | [] => none
              | c' :: r' =>
                if c' = '}' then some (.obj [], r')
                else
                  match pFields f (c' :: r') with
                  | some (fs', r'') => some (.obj fs', r'')
                  | none => none := rfl
        have hws : wsDrop (jdumpFields ((k, w) :: fs) ++ '}' :: r)
            = jdumpFields ((k, w) :: fs) ++ '}' :: r := by
          rw [hflds, wsDrop_not_ws (by decide)]
        have hfuel : (jdumpFields ((k, w) :: fs)).length + 1 < f := by
          have hlen2 : (jdump (.obj ((k, w) :: fs))).length
              = (jdumpFields ((k, w) :: fs)).length + 2 := by
            simp [jdump]
          omega
        have hi := ihF k w fs r hfuel
        rw [hobj, hstep, hws, hflds]
        show (match pFields f ('"' :: ((escL k.data ++ '"' :: (':' :: (jdump w ++ jdumpFieldsNext fs)))
                ++ '}' :: r)) with
              | some (fs', r'') => some (Json.obj fs', r'')
              | none => none) = some (Json.obj ((k, w) :: fs), r)
        rw [← hflds, hi]
    · -- array items
      intro v vs r hlen
      have hsplit : jdumpItems (v :: vs) ++ ']' :: r
          = jdump v ++ (jdumpItemsNext vs ++ ']' :: r) := by
        simp [jdumpItems]
      have hstep : pItems (f + 1) (jdumpItems (v :: vs) ++ ']' :: r)
          = match pVal f (jdumpItems (v :: vs) ++ ']' :: r) with
            | none => none
            | some (v', r') =>
              match wsDrop r' with
              | ',' :: r'' =>
                match pItems f r'' with
                | some (vs', r''') => some (v' :: vs', r''')
                | none => none
              | ']' :: r'' => some ([v'], r'')
              | _ => none := rfl
      have hvpos := jdump_length_pos v
      have hlen0 : (jdumpItems (v :: vs)).length
          = (jdump v).length + (jdumpItemsNext vs).length := by
        simp [jdumpItems]
      match vs with
      | [] =>
        have hv := ihV v (']' :: r) (by simp [jdumpItemsNext] at hlen0; omega) rfl
        rw [hstep, hsplit]
        have : jdumpItemsNext ([] : List Json) ++ ']' :: r = ']' :: r := by
          simp [jdumpItemsNext]
        rw [this, hv]
        rfl
      | x :: xs =>
        have hnext : jdumpItemsNext (x :: xs) ++ ']' :: r
            = ',' :: (jdumpItems (x :: xs) ++ ']' :: r) := by
          simp [jdumpItemsNext, jdumpItems]
        have hxlen : (jdumpItemsNext (x :: xs)).length
            = (jdumpItems (x :: xs)).length + 1 := by
          simp [jdumpItemsNext, jdumpItems]
        have hv := ihV v (jdumpItemsNext (x :: xs) ++ ']' :: r) (by omega)
          (by rw [hnext]; rfl)
        have hx := ihI x xs r (by omega)
        rw [hstep, hsplit, hv, hnext]
        show (match pItems f (jdumpItems (x :: xs) ++ ']' :: r) with
              | some (vs', r''') => some (v :: vs', r''')
              | none => none) = some (v :: x :: xs, r)
        rw [hx]
    · -- object members
      intro k w fs r hlen
      have hwpos := jdump_length_pos w
      have hklen : (jdumpFields ((k, w) :: fs)).length
          = (strCh k).length + 1 + (jdump w).length + (jdumpFieldsNext fs).length := by
        simp [jdumpFields]
        omega
      have hkpos : 2 ≤ (strCh k).length := by
        simp [strCh]
      have hsplit : jdumpFields ((k, w) :: fs) ++ '}' :: r
          = '"' :: (escL k.data ++ '"' :: (':' :: (jdump w ++ (jdumpFieldsNext fs ++ '}' :: r)))) := by
        simp [jdumpFields, strCh]
      have hstep : pFields (f + 1)
          ('"' :: (escL k.data ++ '"' :: (':' :: (jdump w ++ (jdumpFieldsNext fs ++ '}' :: r)))))
          = match pStr (escL k.data ++ '"' :: (':' :: (jdump w ++ (jdumpFieldsNext fs ++ '}' :: r)))) with
            | none => none
            | some (k', r1) =>
              match wsDrop r1 with
              | ':' :: r2 =>
                match pVal f r2 with
                | none => none
                | some (v', r3) =>
                  match wsDrop r3 with
                  | ',' :: r4 =>
                    match pFields f r4 with
                    | some (fs', r5) => some ((k', v') :: fs', r5)
                    | none => none
                  | '}' :: r4 => some ([(k', v')], r4)
                  | _ => none
              | _ => none := rfl
      rw [hsplit, hstep, pStr_round]
      show (match pVal f (jdump w ++ (jdumpFieldsNext fs ++ '}' :: r)) with
            | none => none
            | some (v', r3) =>
              match wsDrop r3 with
              | ',' :: r4 =>
                match pFields f r4 with
                | some (fs', r5) => some ((k, v') :: fs', r5)
                | none => none
              | '}' :: r4 => some ([(k, v')], r4)
              | _ => none) = some ((k, w) :: fs, r)
      match fs with
      | [] =>
        have hnil : jdumpFieldsNext ([] : List (String × Json)) ++ '}' :: r = '}' :: r := by
          simp [jdumpFieldsNext]
        have hnil0 : (jdumpFieldsNext ([] : List (String × Json))).length = 0 := rfl
        have hv := ihV w ('}' :: r) (by omega) rfl
        rw [hnil, hv]
        rfl
      | (k2, w2) :: fs2 =>
        have hnext : jdumpFieldsNext ((k2, w2) :: fs2) ++ '}' :: r
            = ',' :: (jdumpFields ((k2, w2) :: fs2) ++ '}' :: r) := by
          simp [jdumpFieldsNext, jdumpFields]
        have hxlen : (jdumpFieldsNext ((k2, w2) :: fs2)).length
            = (jdumpFields ((k2, w2) :: fs2)).length + 1 := by
          simp [jdumpFieldsNext, jdumpFields]
        have hv := ihV w (jdumpFieldsNext ((k2, w2) :: fs2) ++ '}' :: r) (by omega)
          (by rw [hnext]; rfl)
        have hx := ihF k2 w2 fs2 r (by omega)
        rw [hv, hnext]
        show (match pFields f (jdumpFields ((k2, w2) :: fs2) ++ '}' :: r) with
              | some (fs', r5) => some ((k, w) :: fs', r5)
              | none => none) = some ((k, w) :: (k2, w2) :: fs2, r)
        rw [hx]

/-- Codec round trip: parsing a compact serialization recovers the value.
This is the exactness contract behind the env rewrite's reassemble /
re-serialize cycle. -/
theorem orjsonLoads_dumps (v : Json) : orjsonLoads (orjsonDumps v) = some v := by
  have h := (rtAll ((jdump v).length + 1)).1 v [] (by omega) rfl
  rw [List.append_nil] at h
  simp only [orjsonLoads, orjsonDumps, h]
  rfl

theorem jdump_injective {a b : Json} (h : jdump a = jdump b) : a = b := by
  have ha := orjsonLoads_dumps a
  have hb := orjsonLoads_dumps b
  rw [orjsonDumps] at ha hb
  rw [h, hb] at ha
  exact ((Option.some.injEq _ _).mp ha).symm

instance : DecidableEq Json := fun a b =>
  decidable_of_iff (jdump a = jdump b) ⟨jdump_injective, fun h => by rw [h]⟩

/-! ### The screen/window geometry exclusion set (`launcher.py` lines 22-42) -/

def SCREEN_WINDOW_KEYS_TO_EXCLUDE : List String :=
  [ "window.outerWidth", "window.outerHeight", "window.innerWidth", "window.innerHeight",
    "window.screenX", "window.screenY",
    "screen.width", "screen.height", "screen.availWidth", "screen.availHeight",
    "screen.availTop", "screen.availLeft", "screen.colorDepth", "screen.pixelDepth",
    "document.body.clientWidth", "document.body.clientHeight" ]

/-- Key lookup in a JSON object (first occurrence; dict keys are unique in the
modelled configs). -/
def fieldGet : List (String × Json) → String → Option Json
  | [], _ => none
  | (k, v) :: t, key => if key = k then some v else fieldGet t key

/-- The key-removal loop of `_remove_screen_window_keys_from_env` (lines 70-74):
delete every top-level key in the exclusion set, keep everything else. -/
def removeScreenWindowKeys (fields : List (String × Json)) : List (String × Json) :=
  fields.filter fun kv => !(SCREEN_WINDOW_KEYS_TO_EXCLUDE.contains kv.1)

/-! ### Transport chunking

Camoufox serializes the launch config across numbered env vars
`CAMOU_CONFIG_1`, `CAMOU_CONFIG_2`, ... split at a platform-dependent chunk
size (2047 on win32, 32767 elsewhere; the size is a parameter here).  The env
is embedded with its `CAMOU_CONFIG_*` slots keyed by their index (decimal
rendering of the index is injective, so this is a faithful reshaping) plus an
untouched map for all other variables. -/

/-- Fuel-driven chunk split (fuel `≥ s.length` is exact); each step emits
`take size` and recurses on `drop size`, as `range(0, len, chunk_size)` does. -/
def chunksGo (fuel size : Nat) (s : List Char) : List (List Char) :=
  match fuel, s with
  | _, [] => []
  | 0, s => [s]
  | f + 1, c :: t => (c :: t.take (size - 1)) :: chunksGo f size (t.drop (size - 1))

/-- Split a serialized config into transport chunks of at most `size` chars. -/
def chunksOf (size : Nat) (s : List Char) : List (List Char) := chunksGo s.length size s

/-- Slot lookup (`env[f"CAMOU_CONFIG_{i}"]`). -/
def slotGet : List (Nat × List Char) → Nat → Option (List Char)
  | [], _ => none
  | (j, v) :: t, i => if i = j then some v else slotGet t i

/-- Slot deletion (`del env[f"CAMOU_CONFIG_{i}"]`). -/
def slotDel : List (Nat × List Char) → Nat → List (Nat × List Char)
  | [], _ => []
  | (j, v) :: t, i => if j = i then slotDel t i else (j, v) :: slotDel t i

/-- Slot assignment (`env[f"CAMOU_CONFIG_{i}"] = chunk`), lookup-equivalent to
a dict update. -/
def slotSet (m : List (Nat × List Char)) (i : Nat) (v : List Char) : List (Nat × List Char) :=
  (i, v) :: slotDel m i

/-- The chunk-collection loop (lines 52-56): read slots `1, 2, ...` while
present, stopping at the first gap.  The fuel bound `|m| + 1` is exact: a
finite dict cannot hold more than `|m|` contiguously indexed slots. -/
def collectGo (m : List (Nat × List Char)) : Nat → Nat → List (List Char)
  | 0, _ => []
  | f + 1, i =>
    match slotGet m i with
    | some v => v :: collectGo m f (i + 1)
    | none => []

def collectChunks (m : List (Nat × List Char)) : List (List Char) :=
  collectGo m (m.length + 1) 1

/-- Clearing of the old chunk slots (lines 83-84): `for j in range(1, i): del ...`. -/
def delRange (m : List (Nat × List Char)) : Nat → List (Nat × List Char)
  | 0 => m
  | n + 1 => slotDel (delRange m n) (n + 1)

/-- Writing of the fresh chunk slots (lines 90-92). -/
def setSlots (m : List (Nat × List Char)) (i : Nat) : List (List Char) → List (Nat × List Char)
  | [] => m
  | v :: t => setSlots (slotSet m i v) (i + 1) t

/-- A process environment: the numbered `CAMOU_CONFIG_*` slots plus every
other variable (the function below never touches the latter). -/
structure Env where
  camou : List (Nat × List Char)
  other : String → Option (List Char)

/-- The env rewrite `_remove_screen_window_keys_from_env` (lines 45-94):
collect the numbered chunks, reassemble, parse, delete the excluded keys,
re-serialize, clear the old slots and write the new chunks.  A parse failure
is absorbed (warning logged, env returned untouched); a parsed non-object
raises out of the function (`config.keys()` on a non-dict), which the caller's
top-level handler turns into a failed launch. -/
def remove_screen_window_keys_from_env (chunk_size : Nat) (env : Env) : Except Unit Env :=
  let chunks := collectChunks env.camou
  if chunks.isEmpty then .ok env
  else
    match orjsonLoads chunks.flatten with
    | none => .ok env
    | some (.obj fields) =>
      let fields2 := removeScreenWindowKeys fields
      let s2 := orjsonDumps (.obj fields2)
      .ok { camou := setSlots (delRange env.camou chunks.length) 1 (chunksOf chunk_size s2),
            other := env.other }
    | some _ => .error ()

/-! ### Chunk and slot lemmas -/

theorem chunksGo_flatten (size : Nat) :
    ∀ fuel s, s.length ≤ fuel → (chunksGo fuel size s).flatten = s := by
  intro fuel
  induction fuel with
  | zero =>
    intro s hs
    match s with
    | [] => rfl
  | succ f ih =>
    intro s hs
    match s with
    | [] => rfl
    | c :: t =>
      have hd : (t.drop (size - 1)).length ≤ f := by
        have := List.length_drop (size - 1) t
        simp at hs
        omega
      simp only [chunksGo, List.flatten_cons, ih (t.drop (size - 1)) hd]
      simp

theorem chunksOf_flatten (size : Nat) (s : List Char) : (chunksOf size s).flatten = s :=
  chunksGo_flatten size s.length s le_rfl

theorem chunksOf_ne_nil {size : Nat} {s : List Char} (h : s ≠ []) :
    chunksOf size s ≠ [] := by
  match s with
  | [] => exact absurd rfl h
  | c :: t => simp [chunksOf, chunksGo]


theorem slotGet_slotDel (m : List (Nat × List Char)) (i j : Nat) :
    slotGet (slotDel m i) j = if j = i then none else slotGet m j := by
  induction m with
  | nil => simp [slotDel, slotGet]
  | cons e t ih =>
    obtain ⟨a, v⟩ := e
    simp only [slotDel]
    by_cases hai : a = i
    · rw [if_pos hai, ih]
      by_cases hji : j = i
      · simp [hji]
      · have hja : ¬j = a := by rw [hai]; exact hji
        simp [slotGet, hji, hja]
    · rw [if_neg hai]
      by_cases hja : j = a
      · have hji : ¬j = i := by rw [hja]; exact hai
        simp [slotGet, hja, hji, hai]
      · simp [slotGet, hja, ih]

theorem mem_slotDel (m : List (Nat × List Char)) (i : Nat) :
    ∀ e, e ∈ slotDel m i → e ∈ m := by
  induction m with
  | nil => intro e he; simp [slotDel] at he
  | cons x t ih =>
    obtain ⟨a, v⟩ := x
    intro e he
    simp only [slotDel] at he
    by_cases hai : a = i
    · rw [if_pos hai] at he
      exact List.mem_cons_of_mem _ (ih e he)
    · rw [if_neg hai] at he
      rcases List.mem_cons.mp he with rfl | h
      · exact List.mem_cons_self _ _
      · exact List.mem_cons_of_mem _ (ih e h)

theorem slotGet_slotSet (m : List (Nat × List Char)) (i j : Nat) (v : List Char) :
    slotGet (slotSet m i v) j = if j = i then some v else slotGet m j := by
  by_cases hji : j = i <;> simp [slotSet, slotGet, hji, slotGet_slotDel]

theorem slotGet_setSlots (chs : List (List Char)) :
    ∀ m i j, slotGet (setSlots m i chs) j
      = if i ≤ j ∧ j < i + chs.length then chs.get? (j - i) else slotGet m j := by
  induction chs with
  | nil =>
    intro m i j
    simp only [setSlots, List.length_nil, Nat.add_zero]
    rw [if_neg (by omega)]
  | cons v t ih =>
    intro m i j
    rw [setSlots, ih, slotGet_slotSet]
    by_cases hji : j = i
    · have h1 : ¬(i + 1 ≤ j ∧ j < i + 1 + t.length) := by omega
      have h2 : i ≤ j ∧ j < i + (v :: t).length := by
        simp only [List.length_cons]
        omega
      rw [if_neg h1, if_pos hji, if_pos h2, hji]
      simp
    · by_cases hge : i + 1 ≤ j ∧ j < i + 1 + t.length
      · have h2 : i ≤ j ∧ j < i + (v :: t).length := by
          simp only [List.length_cons]
          omega
        rw [if_pos hge, if_pos h2]
        have hd : j - i = (j - (i + 1)) + 1 := by omega
        rw [hd]
        rfl
      · have h2 : ¬(i ≤ j ∧ j < i + (v :: t).length) := by
          simp only [List.length_cons]
          omega
        rw [if_neg hge, if_neg hji, if_neg h2]

theorem setSlots_mem (chs : List (List Char)) :
    ∀ m i e, e ∈ setSlots m i chs → e ∈ m ∨ (i ≤ e.1 ∧ e.1 < i + chs.length) := by
  induction chs with
  | nil => intro m i e he; exact Or.inl he
  | cons v t ih =>
    intro m i e he
    rcases ih (slotSet m i v) (i + 1) e he with hm | hrange
    · simp only [slotSet, List.mem_cons] at hm
      rcases hm with rfl | hdel
      · right
        refine ⟨le_rfl, ?_⟩
        simp only [List.length_cons]
        omega
      · left
        exact mem_slotDel m i _ hdel
    · right
      simp only [List.length_cons]
      omega

theorem mem_delRange (m : List (Nat × List Char)) :
    ∀ n e, e ∈ delRange m n → e ∈ m ∧ ¬(1 ≤ e.1 ∧ e.1 ≤ n) := by
  intro n
  induction n with
  | zero => intro e he; exact ⟨he, by omega⟩
  | succ n ih =>
    intro e he
    simp only [delRange] at he
    have hne : e.1 ≠ n + 1 := by
      intro hcontra
      obtain ⟨a, v⟩ := e
      revert he
      induction delRange m n with
      | nil => intro he; simp [slotDel] at he
      | cons x t ihx =>
        obtain ⟨b, w⟩ := x
        intro he
        simp only [slotDel] at he
        by_cases hb : b = n + 1
        · rw [if_pos hb] at he
          exact ihx he
        · rw [if_neg hb] at he
          rcases List.mem_cons.mp he with hx | h
          · simp at hcontra
            rw [hcontra] at hx
            simp at hx
            exact hb hx.1.symm
          · exact ihx h
    have hmem := mem_slotDel (delRange m n) (n + 1) e he
    obtain ⟨hm, hn⟩ := ih e hmem
    exact ⟨hm, by omega⟩

theorem collectGo_spec (chs : List (List Char)) :
    ∀ m fuel i, chs.length < fuel → (∀ d, slotGet m (i + d) = chs.get? d) →
      collectGo m fuel i = chs := by
  induction chs with
  | nil =>
    intro m fuel i hf hlook
    match fuel with
    | f + 1 =>
      have h0 : slotGet m i = none := by
        have hstep := hlook 0
        simpa using hstep
      simp [collectGo, h0]
  | cons c t ih =>
    intro m fuel i hf hlook
    match fuel with
    | f + 1 =>
      have h0 : slotGet m i = some c := by
        have hstep := hlook 0
        simpa using hstep
      have ht : ∀ d, slotGet m (i + 1 + d) = t.get? d := by
        intro d
        have hstep := hlook (d + 1)
        rw [show i + (d + 1) = i + 1 + d by omega] at hstep
        simpa using hstep
      simp only [collectGo, h0]
      rw [ih m f (i + 1) (by simp only [List.length_cons] at hf; omega) ht]

/-! ### Key filtering lemmas -/

theorem fieldGet_remove (fields : List (String × Json)) (key : String) :
    fieldGet (removeScreenWindowKeys fields) key
      = if SCREEN_WINDOW_KEYS_TO_EXCLUDE.contains key then none
        else fieldGet fields key := by
  induction fields with
  | nil => simp [removeScreenWindowKeys, fieldGet]
  | cons kv t ih =>
    obtain ⟨k, v⟩ := kv
    by_cases hk : SCREEN_WINDOW_KEYS_TO_EXCLUDE.contains k
    · have hkmem : k ∈ SCREEN_WINDOW_KEYS_TO_EXCLUDE := List.mem_of_elem_eq_true hk
      have hfil : removeScreenWindowKeys ((k, v) :: t) = removeScreenWindowKeys t := by
        simp [removeScreenWindowKeys, List.filter_cons, hkmem]
      rw [hfil, ih]
      by_cases hkey : key = k
      · rw [hkey]
        simp [hkmem]
      · simp [fieldGet, hkey]
    · have hkmem : k ∉ SCREEN_WINDOW_KEYS_TO_EXCLUDE := by
        intro hmem
        exact hk (List.elem_eq_true_of_mem hmem)
      have hfil : removeScreenWindowKeys ((k, v) :: t)
          = (k, v) :: removeScreenWindowKeys t := by
        simp [removeScreenWindowKeys, List.filter_cons, hkmem]
      rw [hfil]
      by_cases hkey : key = k
      · rw [hkey]
        simp [fieldGet, hkmem]
      · simp [fieldGet, hkey, ih]

theorem removeScreenWindowKeys_id (fields : List (String × Json))
    (h : ∀ kv ∈ fields, SCREEN_WINDOW_KEYS_TO_EXCLUDE.contains kv.1 = false) :
    removeScreenWindowKeys fields = fields := by
  rw [removeScreenWindowKeys, List.filter_eq_self]
  intro kv hkv
  rw [h kv hkv]
  rfl

/-! ### Collecting from a freshly written env -/

theorem slotDel_noop (m : List (Nat × List Char)) (i : Nat)
    (h : ∀ e ∈ m, e.1 ≠ i) : slotDel m i = m := by
  induction m with
  | nil => rfl
  | cons e t ih =>
    obtain ⟨a, v⟩ := e
    have ha : a ≠ i := h (a, v) (List.mem_cons_self _ _)
    simp only [slotDel, if_neg ha]
    rw [ih fun e he => h e (List.mem_cons_of_mem _ he)]

theorem setSlots_length (chs : List (List Char)) :
    ∀ m i, (∀ e ∈ m, e.1 < i) → (setSlots m i chs).length = m.length + chs.length := by
  induction chs with
  | nil => intro m i _; simp [setSlots]
  | cons v t ih =>
    intro m i hm
    have hdel : slotDel m i = m :=
      slotDel_noop m i fun e he => Nat.ne_of_lt (hm e he)
    have hm' : ∀ e ∈ slotSet m i v, e.1 < i + 1 := by
      intro e he
      simp only [slotSet, hdel, List.mem_cons] at he
      rcases he with rfl | he
      · omega
      · exact Nat.lt_succ_of_lt (hm e he)
    rw [setSlots, ih (slotSet m i v) (i + 1) hm']
    simp [slotSet, hdel]
    omega

theorem collect_fresh (chs : List (List Char)) :
    collectChunks (setSlots [] 1 chs) = chs := by
  have hlen : (setSlots [] 1 chs).length = chs.length := by
    have := setSlots_length chs [] 1 (by simp)
    simpa using this
  have hlook : ∀ d, slotGet (setSlots [] 1 chs) (1 + d) = chs.get? d := by
    intro d
    rw [slotGet_setSlots]
    by_cases hd : d < chs.length
    · rw [if_pos (by omega)]
      congr 1
      omega
    · rw [if_neg (by omega)]
      rw [slotGet]
      exact (List.get?_eq_none.mpr (by omega)).symm
  rw [collectChunks, hlen]
  exact collectGo_spec chs _ (chs.length + 1) 1 (by omega) hlook

theorem delRange_fresh_nil (orig : List (List Char)) :
    delRange (setSlots [] 1 orig) orig.length = [] := by
  rw [List.eq_nil_iff_forall_not_mem]
  intro e he
  obtain ⟨hm, hrange⟩ := mem_delRange _ _ e he
  rcases setSlots_mem orig [] 1 e hm with h0 | hr
  · exact absurd h0 (List.not_mem_nil e)
  · exact hrange ⟨hr.1, by omega⟩

/-- Master lemma for the env rewrite: on an env whose `CAMOU_CONFIG_*` slots
are exactly the chunking of a serialized object (the shape
`camoufox_launch_options` produces), the rewrite succeeds and leaves an env
whose slots are exactly the chunking of the serialized filtered object; other
env vars are untouched. -/
theorem remove_env_spec (chunk_size : Nat) (env : Env) (fields : List (String × Json))
    (hcam : env.camou = setSlots [] 1 (chunksOf chunk_size (orjsonDumps (.obj fields)))) :
    remove_screen_window_keys_from_env chunk_size env
      = .ok { camou := setSlots [] 1
                (chunksOf chunk_size (orjsonDumps (.obj (removeScreenWindowKeys fields)))),
              other := env.other } := by
  have hchunks : collectChunks env.camou
      = chunksOf chunk_size (orjsonDumps (.obj fields)) := by
    rw [hcam]
    exact collect_fresh _
  have hne : chunksOf chunk_size (orjsonDumps (.obj fields)) ≠ [] :=
    chunksOf_ne_nil (jdump_ne_nil (.obj fields))
  have hnemp : (chunksOf chunk_size (orjsonDumps (.obj fields))).isEmpty = false := by
    rw [List.isEmpty_eq_false]
    exact hne
  have hflat : (chunksOf chunk_size (orjsonDumps (.obj fields))).flatten
      = orjsonDumps (.obj fields) := chunksOf_flatten _ _
  have hdel : delRange env.camou (chunksOf chunk_size (orjsonDumps (.obj fields))).length
      = [] := by
    rw [hcam]
    exact delRange_fresh_nil _
  rw [remove_screen_window_keys_from_env]
  simp only [hchunks, hnemp, Bool.false_eq_true, if_false, hflat, orjsonLoads_dumps, hdel]

/-! ### Profile status (`gui/models.py` lines 10-16)

The enum has exactly these four members; there is no `STOPPING` member. -/

inductive ProfileStatus where
  | stopped : ProfileStatus
  | starting : ProfileStatus
  | running : ProfileStatus
  | error : ProfileStatus
deriving DecidableEq

/-! ### Fingerprint configs and the persisted record

`fp_config` is a Python dict from attribute keys to scalar values; it is
embedded as a partial map.  Only string- and number-valued attributes are
observable in the modelled paths. -/

inductive FpVal where
  | str (s : String) : FpVal
  | int (n : Int) : FpVal
deriving DecidableEq

def FpConfig := String → Option FpVal

/-- Dict assignment `fp_config[k] = v`. -/
def cfgSet (c : FpConfig) (k : String) (v : FpVal) : FpConfig :=
  fun k' => if k' = k then some v else c k'

/-- Dict removal `fp_config.pop(k, None)`. -/
def cfgPop (c : FpConfig) (k : String) : FpConfig :=
  fun k' => if k' = k then none else c k'

/-- The deletion loop over the geometry exclusion set (lines 356-358 and
469-471): every excluded key is removed, all others kept. -/
def cfgDelExcluded (c : FpConfig) : FpConfig :=
  fun k => if SCREEN_WINDOW_KEYS_TO_EXCLUDE.contains k then none else c k

/-- The persisted `fingerprint.json` payload (lines 484-498).  Records written
by this application always carry every field, so a parsed record is total. -/
structure FpRecord where
  fingerprint : FpConfig
  webglVendor : String
  webglRenderer : String
  canvasAaOffset : Int
  fontsSpacingSeed : Int
  historyLength : Int
  os : String

/-- State of the per-profile `fingerprint.json` file: missing, present but
unparseable (`json.loads` raises), or parseable. -/
inductive StoredFile where
  | absent : StoredFile
  | corrupt : StoredFile
  | valid (r : FpRecord) : StoredFile

/-! ### GeoIP resolution result (`GeoIPInfoCompat`, lines 163-172)

Latitude/longitude are floats in the source; the modelled paths observe only
their Python truthiness (`None`/`0.0` falsy) and pass them through verbatim,
so they are embedded as `Option Int`. -/

structure GeoIPInfo where
  ip : String
  country_code : String
  timezone : String
  lat : Option Int
  lon : Option Int

/-- Python truthiness of an optional numeric field. -/
def pyTruthy : Option Int → Bool
  | none => false
  | some n => n ≠ 0

/-- The `country_to_lang` mapping (lines 324-350 and 434-460, identical). -/
def country_to_lang : List (String × String) :=
  [ ("RU", "ru"), ("US", "en"), ("GB", "en"), ("DE", "de"), ("FR", "fr"),
    ("ES", "es"), ("IT", "it"), ("PT", "pt"), ("NL", "nl"), ("PL", "pl"),
    ("UA", "uk"), ("BY", "be"), ("KZ", "kk"), ("CN", "zh"), ("JP", "ja"),
    ("KR", "ko"), ("BR", "pt"), ("AR", "es"), ("MX", "es"), ("IN", "hi"),
    ("TR", "tr"), ("SA", "ar"), ("IL", "he"), ("TH", "th"), ("VN", "vi") ]

def langLookup : List (String × String) → String → String
  | [], _ => "en"
  | (c, l) :: t, cc => if cc = c then l else langLookup t cc

/-- `country_to_lang.get(country_code, "en")`. -/
def countryToLang (cc : String) : String := langLookup country_to_lang cc

/-- `profile.os_type or "windows"` (lines 295, 390, 497). -/
def orWindows (osType : String) : String := if osType = "" then "windows" else osType

/-- `os_short_map.get(profile.os_type, "win")` (lines 276-280, 477). -/
def os_short (osType : String) : String :=
  if osType = "windows" then "win"
  else if osType = "macos" then "mac"
  else if osType = "linux" then "lin"
  else "win"

/-- The geo fold-in shared by both branches (lines 318-353 / 424-463): fresh
timezone always; coordinates only when both are truthy; then locale region and
language. -/
def applyGeo (g : GeoIPInfo) (c : FpConfig) : FpConfig :=
  let c1 := cfgSet c "timezone" (.str g.timezone)
  let c2 :=
    if pyTruthy g.lat && pyTruthy g.lon then
      cfgSet (cfgSet c1 "geolocation:latitude" (.int (g.lat.getD 0)))
        "geolocation:longitude" (.int (g.lon.getD 0))
    else c1
  let c3 := cfgSet c2 "locale:region" (.str g.country_code)
  cfgSet c3 "locale:language" (.str (countryToLang g.country_code))

/-- The nondeterministic inputs of the generate branch: the browserforge
fingerprint (converted via `from_browserforge`), the three pre-generated noise
values (lines 402-404), the WebGL sampler, and the two Firefox-version
`re.sub` rewrites on the user agent (lines 413-420, abstracted). -/
structure GenInputs where
  generated : FpConfig
  canvas_aa_offset : Int
  fonts_spacing_seed : Int
  history_length : Int
  sampleWebgl : String → String × String
  uaFix : String → String

/-- What the resolve step hands to the launch assembly: the `config` dict, the
`webgl_config` pair, and the post-state of the record file. -/
structure ResolveOut where
  config : FpConfig
  webgl : Option (String × String)
  stored : StoredFile

/-- The load branch (lines 303-380): strip the six refreshable locale keys,
fold in the fresh geo data if any, drop excluded geometry keys, then restore
the pinned noise values and the persisted WebGL pair.  The record file is not
rewritten. -/
def loadBranch (r : FpRecord) (geo : Option GeoIPInfo) : ResolveOut :=
  let c1 := cfgPop (cfgPop (cfgPop (cfgPop (cfgPop (cfgPop r.fingerprint
    "locale:timezone") "timezone") "geolocation:latitude") "geolocation:longitude")
    "locale:region") "locale:language"
  let c2 := match geo with
    | some g => applyGeo g c1
    | none => c1
  let c3 := cfgDelExcluded c2
  let c4 := cfgSet (cfgSet (cfgSet c3 "canvas:aaOffset" (.int r.canvasAaOffset))
    "fonts:spacing_seed" (.int r.fontsSpacingSeed))
    "window.history.length" (.int r.historyLength)
  { config := c4, webgl := some (r.webglVendor, r.webglRenderer), stored := .valid r }

/-- Tail of the generate branch after the user-agent rewrite (lines 422-502):
geo fold-in, geometry-key removal, WebGL sampling for the profile OS, and
persistence of the complete record. -/
def generateRest (osType : String) (geo : Option GeoIPInfo) (gen : GenInputs)
    (c2 : FpConfig) : ResolveOut :=
  let c3 := match geo with
    | some g => applyGeo g c2
    | none => c2
  let c4 := cfgDelExcluded c3
  let w := gen.sampleWebgl (os_short osType)
  let rec0 : FpRecord :=
    { fingerprint := c4, webglVendor := w.1, webglRenderer := w.2,
      canvasAaOffset := gen.canvas_aa_offset,
      fontsSpacingSeed := gen.fonts_spacing_seed,
      historyLength := gen.history_length, os := orWindows osType }
  { config := c4, webgl := some w, stored := .valid rec0 }

/-- The noise pinning of the generate branch (lines 407-409): the three
pre-generated values are written into the fresh config so Camoufox will not
overwrite them. -/
def noiseSet (gen : GenInputs) : FpConfig :=
  cfgSet (cfgSet (cfgSet gen.generated "canvas:aaOffset" (.int gen.canvas_aa_offset))
    "fonts:spacing_seed" (.int gen.fonts_spacing_seed))
    "window.history.length" (.int gen.history_length)

/-- The generate branch (lines 381-502).  `re.sub` on a non-string
`navigator.userAgent` raises `TypeError` before anything is persisted, which
the top-level handler absorbs; the error payload is the file state at that
point (no file). -/
def generateBranch (osType : String) (geo : Option GeoIPInfo) (gen : GenInputs) :
    Except StoredFile ResolveOut :=
  match noiseSet gen "navigator.userAgent" with
  | some (.int _) => .error .absent
  | some (.str ua) =>
    .ok (generateRest osType geo gen
      (cfgSet (noiseSet gen) "navigator.userAgent" (.str (gen.uaFix ua))))
  | none => .ok (generateRest osType geo gen (noiseSet gen))

/-- The fingerprint resolve step inlined in `launch_profile` (lines 288-502):
a corrupt record makes `json.loads` raise; a record with a stale OS is deleted
and regenerated; otherwise the record is loaded and merged.  The error payload
carries the file state at the raise. -/
def fingerprintStep (osType : String) (file : StoredFile) (geo : Option GeoIPInfo)
    (gen : GenInputs) : Except StoredFile ResolveOut :=
  match file with
  | .corrupt => .error .corrupt
  | .absent => generateBranch osType geo gen
  | .valid r =>
    if r.os ≠ orWindows osType then generateBranch osType geo gen
    else .ok (loadBranch r geo)

/-! ### `launch_profile` (lines 119-572)

The whole body runs inside one `try`.  The geo lookup has its own inner
`try/except` (lines 149-183), so a failed resolution reaches the rest of the
body as "no geo data" (`geo = none`) rather than as an exception.  Everything
after the resolve step (launch-option generation, the env rewrite, browser
start, page setup) is summarized by `engineOk`; any exception there reaches
the top-level handler.  On the success path the status callback (if set)
receives RUNNING; the handler reports ERROR and returns `False`. -/

structure LaunchResult where
  success : Bool
  statuses : List ProfileStatus
  stored : StoredFile

def launch_profile (cbSet : Bool) (osType : String) (file : StoredFile)
    (geo : Option GeoIPInfo) (gen : GenInputs) (engineOk : Bool) : LaunchResult :=
  match fingerprintStep osType file geo gen with
  | .error st =>
    { success := false, statuses := if cbSet then [.error] else [], stored := st }
  | .ok out =>
    if engineOk then
      { success := true, statuses := if cbSet then [.running] else [], stored := out.stored }
    else
      { success := false, statuses := if cbSet then [.error] else [], stored := out.stored }

/-! ### Session tables of `BrowserLauncher` (lines 100-107, 527-534, 558)

`launch_profile` performs no already-running check; on a successful start it
assigns into the three dicts (overwriting any existing entry for the id) after
having entered a fresh browser (`__aenter__`).  `startedCount` counts browser
starts. -/

structure LauncherTables where
  browsers : List String
  browser_instances : List String
  pages : List String
  startedCount : Nat

/-- Dict key insertion: the key set gains `k` (value overwritten if present). -/
def keyAdd (l : List String) (k : String) : List String :=
  if k ∈ l then l else l ++ [k]

/-- The table updates of one successful `launch_profile` call. -/
def launchTablesStep (s : LauncherTables) (pid : String) : LauncherTables :=
  { browsers := keyAdd s.browsers pid,
    browser_instances := keyAdd s.browser_instances pid,
    pages := keyAdd s.pages pid,
    startedCount := s.startedCount + 1 }

/-- `is_running` (lines 701-703): pure membership test on the instance table. -/
def is_running (s : LauncherTables) (pid : String) : Bool :=
  pid ∈ s.browser_instances

/-- The guard of the GUI caller `_start_profile` (`app.py` lines 792-809): an
already-running or already-starting profile is skipped before `launch_profile`
is invoked; a successful launch updates the tables. -/
def app_start_profile (s : LauncherTables) (status : ProfileStatus) (pid : String)
    (launchOk : Bool) : LauncherTables × Bool :=
  if is_running s pid then (s, false)
  else if status = ProfileStatus.starting then (s, false)
  else if launchOk then (launchTablesStep s pid, true)
  else (s, false)

/-! ### Attribute surface of `BrowserLauncher` (lines 97-709)

The methods the class defines, in source order.  `app.py` line 815
(`_stop_profile`) begins by calling `self.launcher.is_stopping(profile.id)`;
attribute lookup on the instance resolves against this list. -/

def browserLauncherMethods : List String :=
  [ "__init__", "set_status_callback", "set_browser_closed_callback", "launch_profile",
    "_monitor_browser", "_save_browser_state", "_cleanup_profile",
    "_restore_browser_state", "stop_profile", "is_running", "cleanup" ]

/-- Python attribute lookup of a method on a `BrowserLauncher` instance. -/
def getattrLauncher (name : String) : Except String Unit :=
  if browserLauncherMethods.contains name then .ok () else .error "AttributeError"

/-- The first statement `_stop_profile` executes (`app.py` line 815). -/
def app_stop_profile_first_step : Except String Unit := getattrLauncher "is_stopping"

/-! ### Resolve-step helper lemmas -/

theorem generateBranch_ua_none {gen : GenInputs}
    (h : noiseSet gen "navigator.userAgent" = none) (osType : String)
    (geo : Option GeoIPInfo) :
    generateBranch osType geo gen = .ok (generateRest osType geo gen (noiseSet gen)) := by
  rw [generateBranch, h]

theorem generateBranch_ua_str {gen : GenInputs} {ua : String}
    (h : noiseSet gen "navigator.userAgent" = some (.str ua)) (osType : String)
    (geo : Option GeoIPInfo) :
    generateBranch osType geo gen
      = .ok (generateRest osType geo gen
          (cfgSet (noiseSet gen) "navigator.userAgent" (.str (gen.uaFix ua)))) := by
  rw [generateBranch, h]

theorem generateBranch_ua_int {gen : GenInputs} {n : Int}
    (h : noiseSet gen "navigator.userAgent" = some (.int n)) (osType : String)
    (geo : Option GeoIPInfo) :
    generateBranch osType geo gen = .error .absent := by
  rw [generateBranch, h]

theorem fingerprintStep_load {osType : String} {r : FpRecord}
    (hos : osType ≠ "") (hros : r.os = osType) (geo : Option GeoIPInfo) (gen : GenInputs) :
    fingerprintStep osType (.valid r) geo gen = .ok (loadBranch r geo) := by
  have hcur : orWindows osType = osType := by rw [orWindows, if_neg hos]
  rw [fingerprintStep, if_neg]
  intro hne
  exact hne (by rw [hros, hcur])

theorem fingerprintStep_os_change {osType : String} {r : FpRecord}
    (hne : r.os ≠ orWindows osType) (geo : Option GeoIPInfo) (gen : GenInputs) :
    fingerprintStep osType (.valid r) geo gen = generateBranch osType geo gen := by
  rw [fingerprintStep, if_pos hne]

theorem applyGeo_no_coords (g : GeoIPInfo) (c : FpConfig)
    (hcond : (pyTruthy g.lat && pyTruthy g.lon) = false) :
    applyGeo g c
      = cfgSet (cfgSet (cfgSet c "timezone" (.str g.timezone))
          "locale:region" (.str g.country_code))
          "locale:language" (.str (countryToLang g.country_code)) := by
  simp only [applyGeo, hcond]
  rfl

/-! ### Concrete sample inputs used to instantiate the claim theorems -/

def genSample : GenInputs :=
  { generated := fun _ => none, canvas_aa_offset := 7, fonts_spacing_seed := 12345,
    history_length := 3, sampleWebgl := fun o => ("Vendor-" ++ o, "Renderer-" ++ o),
    uaFix := fun ua => ua }

def recSample : FpRecord :=
  { fingerprint := fun k => if k = "timezone" then some (.str "Europe/Warsaw") else none,
    webglVendor := "NVIDIA Corporation", webglRenderer := "GeForce GTX 980",
    canvasAaOffset := -3, fontsSpacingSeed := 987654, historyLength := 4,
    os := "windows" }

def geoSample : GeoIPInfo :=
  { ip := "203.0.113.9", country_code := "PL", timezone := "Europe/Warsaw",
    lat := some 52, lon := some 21 }

/-! ### C1 -/

/-- C1: for a profile whose persisted record's stored OS equals the profile's
current `os_type`, running the launch-preparation resolve step twice in a row
(the second call reading the file state the first one left) returns identical
device-identity values both times — the WebGL vendor/renderer pair, canvas
`aaOffset`, fonts `spacing_seed` and history length — and each value is read
back from the record, independent of the generator randomness and geo data of
either call. -/
theorem c1_identity_fields_stable
    (osType : String) (hos : osType ≠ "") (r : FpRecord) (hros : r.os = osType)
    (geo1 geo2 : Option GeoIPInfo) (gen1 gen2 : GenInputs) :
    ∃ out1 out2,
      fingerprintStep osType (.valid r) geo1 gen1 = .ok out1 ∧
      fingerprintStep osType out1.stored geo2 gen2 = .ok out2 ∧
      out1.webgl = some (r.webglVendor, r.webglRenderer) ∧
      out2.webgl = some (r.webglVendor, r.webglRenderer) ∧
      out1.config "canvas:aaOffset" = some (.int r.canvasAaOffset) ∧
      out2.config "canvas:aaOffset" = some (.int r.canvasAaOffset) ∧
      out1.config "fonts:spacing_seed" = some (.int r.fontsSpacingSeed) ∧
      out2.config "fonts:spacing_seed" = some (.int r.fontsSpacingSeed) ∧
      out1.config "window.history.length" = some (.int r.historyLength) ∧
      out2.config "window.history.length" = some (.int r.historyLength) := by
  refine ⟨loadBranch r geo1, loadBranch r geo2,
    fingerprintStep_load hos hros geo1 gen1, ?_, rfl, rfl, rfl, rfl, rfl, rfl, rfl, rfl⟩
  exact fingerprintStep_load hos hros geo2 gen2

/-- C1 witness: the theorem applied at a concrete profile and record. -/
theorem c1_witness :
    ("windows" : String) ≠ "" ∧ recSample.os = "windows" ∧
    ∃ out1 out2,
      fingerprintStep "windows" (.valid recSample) none genSample = .ok out1 ∧
      fingerprintStep "windows" out1.stored (some geoSample) genSample = .ok out2 ∧
      out1.webgl = some (recSample.webglVendor, recSample.webglRenderer) ∧
      out2.webgl = some (recSample.webglVendor, recSample.webglRenderer) ∧
      out1.config "canvas:aaOffset" = some (.int recSample.canvasAaOffset) ∧
      out2.config "canvas:aaOffset" = some (.int recSample.canvasAaOffset) ∧
      out1.config "fonts:spacing_seed" = some (.int recSample.fontsSpacingSeed) ∧
      out2.config "fonts:spacing_seed" = some (.int recSample.fontsSpacingSeed) ∧
      out1.config "window.history.length" = some (.int recSample.historyLength) ∧
      out2.config "window.history.length" = some (.int recSample.historyLength) :=
  ⟨by decide, rfl,
    c1_identity_fields_stable "windows" (by decide) recSample rfl none (some geoSample)
      genSample genSample⟩

/-! ### C2 -/

/-- C2: whatever the raw generated or loaded data contained, the configuration
handed to the launch step is free of every screen/window geometry key, at both
levels: the resolve step's `config` dict maps each excluded key to nothing
(both branches run the deletion loop), and the final env rewrite leaves
`CAMOU_CONFIG_*` slots whose reassembled, parsed content is the input object
with every excluded key removed. -/
theorem c2_geometry_keys_removed
    (osType : String) (file : StoredFile) (geo : Option GeoIPInfo) (gen : GenInputs)
    (chunk_size : Nat) (env : Env) (fields : List (String × Json))
    (hcam : env.camou = setSlots [] 1 (chunksOf chunk_size (orjsonDumps (.obj fields)))) :
    (∀ out, fingerprintStep osType file geo gen = .ok out →
      ∀ k ∈ SCREEN_WINDOW_KEYS_TO_EXCLUDE, out.config k = none) ∧
    (∃ env', remove_screen_window_keys_from_env chunk_size env = .ok env' ∧
      orjsonLoads ((collectChunks env'.camou).flatten)
        = some (.obj (removeScreenWindowKeys fields)) ∧
      (∀ k ∈ SCREEN_WINDOW_KEYS_TO_EXCLUDE,
        fieldGet (removeScreenWindowKeys fields) k = none) ∧
      env'.other = env.other) := by
  constructor
  · intro out hout k hk
    have hmem : SCREEN_WINDOW_KEYS_TO_EXCLUDE.contains k = true :=
      List.elem_eq_true_of_mem hk
    have hload : ∀ r geo', out = loadBranch r geo' → out.config k = none := by
      intro r geo' hrw
      rw [hrw]
      show cfgSet (cfgSet (cfgSet _ _ _) _ _) _ _ k = none
      fin_cases hk <;> rfl
    have hgen : ∀ c geo', out = generateRest osType geo' gen c → out.config k = none := by
      intro c geo' hrw
      rw [hrw]
      show cfgDelExcluded _ k = none
      rw [cfgDelExcluded, if_pos hmem]
    have hbranch : ∀ geo', generateBranch osType geo' gen = .ok out → out.config k = none := by
      intro geo' hb
      rcases hsc : noiseSet gen "navigator.userAgent" with _ | v
      · rw [generateBranch_ua_none hsc osType geo'] at hb
        exact hgen _ geo' (Except.ok.inj hb).symm
      · match v with
        | .str ua =>
          rw [generateBranch_ua_str hsc osType geo'] at hb
          exact hgen _ geo' (Except.ok.inj hb).symm
        | .int n =>
          rw [generateBranch_ua_int hsc osType geo'] at hb
          exact absurd hb (by intro hcontra; cases hcontra)
    match file with
    | .corrupt => exact absurd hout (by rw [fingerprintStep]; intro hcontra; cases hcontra)
    | .absent => exact hbranch geo (by rw [← fingerprintStep]; exact hout)
    | .valid r =>
      by_cases hne : r.os ≠ orWindows osType
      · rw [fingerprintStep_os_change hne geo gen] at hout
        exact hbranch geo hout
      · rw [fingerprintStep, if_neg hne] at hout
        exact hload r geo (Except.ok.inj hout).symm
  · refine ⟨_, remove_env_spec chunk_size env fields hcam, ?_, ?_, rfl⟩
    · show orjsonLoads ((collectChunks (setSlots [] 1 _)).flatten) = _
      rw [collect_fresh, chunksOf_flatten, orjsonLoads_dumps]
    · intro k hk
      rw [fieldGet_remove, if_pos (List.elem_eq_true_of_mem hk)]

/-- C2 witness: concrete instantiation with excluded keys present in both the
generated data and the serialized env config. -/
theorem c2_witness :
    (Env.mk (setSlots [] 1 (chunksOf 5 (orjsonDumps
        (.obj [("screen.width", .num 1920), ("a", .str "b")])))) (fun _ => none)).camou
      = setSlots [] 1 (chunksOf 5 (orjsonDumps
          (.obj [("screen.width", .num 1920), ("a", .str "b")]))) ∧
    ((∀ out, fingerprintStep "windows" .absent none
        { genSample with generated := fun k => if k = "screen.width" then some (.int 100) else none }
        = .ok out →
      ∀ k ∈ SCREEN_WINDOW_KEYS_TO_EXCLUDE, out.config k = none) ∧
    (∃ env', remove_screen_window_keys_from_env 5
        (Env.mk (setSlots [] 1 (chunksOf 5 (orjsonDumps
          (.obj [("screen.width", .num 1920), ("a", .str "b")])))) (fun _ => none)) = .ok env' ∧
      orjsonLoads ((collectChunks env'.camou).flatten)
        = some (.obj (removeScreenWindowKeys [("screen.width", .num 1920), ("a", .str "b")])) ∧
      (∀ k ∈ SCREEN_WINDOW_KEYS_TO_EXCLUDE,
        fieldGet (removeScreenWindowKeys [("screen.width", .num 1920), ("a", .str "b")]) k
          = none) ∧
      env'.other = (fun _ => (none : Option (List Char))))) :=
  ⟨rfl, c2_geometry_keys_removed "windows" .absent none
    { genSample with generated := fun k => if k = "screen.width" then some (.int 100) else none }
    5 _ [("screen.width", .num 1920), ("a", .str "b")] rfl⟩

/-! ### C3 -/

/-- C3: with a persisted record generated for OS A, changing the profile's
`os_type` to a different OS B and resolving again deletes the old record and
persists a brand-new one whose `os` field is B, and the returned WebGL
vendor/renderer pair is the one sampled for B's short OS code. -/
theorem c3_os_change_regenerates
    (osA osB : String) (hB : osB ≠ "") (hAB : osA ≠ osB) (r : FpRecord) (hros : r.os = osA)
    (geo : Option GeoIPInfo) (gen : GenInputs)
    (hua : ∀ n : Int, noiseSet gen "navigator.userAgent" ≠ some (.int n)) :
    ∃ out rec0,
      fingerprintStep osB (.valid r) geo gen = .ok out ∧
      out.stored = .valid rec0 ∧
      rec0.os = osB ∧
      rec0.os ≠ r.os ∧
      out.webgl = some (gen.sampleWebgl (os_short osB)) ∧
      rec0.webglVendor = (gen.sampleWebgl (os_short osB)).1 ∧
      rec0.webglRenderer = (gen.sampleWebgl (os_short osB)).2 := by
  have hcur : orWindows osB = osB := by rw [orWindows, if_neg hB]
  have hcond : r.os ≠ orWindows osB := by
    rw [hcur, hros]
    exact hAB
  rw [fingerprintStep_os_change hcond geo gen]
  rcases hsc : noiseSet gen "navigator.userAgent" with _ | v
  · rw [generateBranch_ua_none hsc osB geo]
    refine ⟨_, _, rfl, rfl, hcur, ?_, rfl, rfl, rfl⟩
    show orWindows osB ≠ r.os
    rw [hcur, hros]
    exact fun h => hAB h.symm
  · match v with
    | .str ua =>
      rw [generateBranch_ua_str hsc osB geo]
      refine ⟨_, _, rfl, rfl, hcur, ?_, rfl, rfl, rfl⟩
      show orWindows osB ≠ r.os
      rw [hcur, hros]
      exact fun h => hAB h.symm
    | .int n => exact absurd hsc (hua n)

/-- C3 witness: a record persisted for windows and a profile switched to
macos. -/
theorem c3_witness :
    ("macos" : String) ≠ "" ∧ ("windows" : String) ≠ "macos" ∧
    recSample.os = "windows" ∧
    (∀ n : Int, noiseSet genSample "navigator.userAgent" ≠ some (.int n)) ∧
    ∃ out rec0,
      fingerprintStep "macos" (.valid recSample) (some geoSample) genSample = .ok out ∧
      out.stored = .valid rec0 ∧
      rec0.os = "macos" ∧
      rec0.os ≠ recSample.os ∧
      out.webgl = some (genSample.sampleWebgl (os_short "macos")) ∧
      rec0.webglVendor = (genSample.sampleWebgl (os_short "macos")).1 ∧
      rec0.webglRenderer = (genSample.sampleWebgl (os_short "macos")).2 :=
  ⟨by decide, by decide, rfl, (fun n h => nomatch h),
    c3_os_change_regenerates "windows" "macos" (by decide) (by decide) recSample rfl
      (some geoSample) genSample (fun n h => nomatch h)⟩

/-! ### C4 -/

/-- C4 counterexample: with a session already registered for "p1" (so
`is_running` is true), a second `launch_profile` call is not a no-op — it
enters a second browser (`startedCount` goes to 2).  Exactly one handle
remains only because the dict entry is overwritten. -/
theorem c4_counterexample :
    is_running (launchTablesStep (LauncherTables.mk [] [] [] 0) "p1") "p1" = true ∧
    (launchTablesStep (launchTablesStep (LauncherTables.mk [] [] [] 0) "p1") "p1").startedCount
      = 2 ∧
    (launchTablesStep (launchTablesStep (LauncherTables.mk [] [] [] 0) "p1") "p1").browsers
      = ["p1"] := by
  refine ⟨?_, rfl, ?_⟩ <;> decide

/-- C4 amended: `launch_profile` itself performs no already-running guard — a
second call for a profile whose handle exists starts another browser instance
(`startedCount` increases again) and overwrites the dict entries, so the table
still holds exactly one handle for the id; the reject-if-running behaviour is
implemented by the GUI caller `_start_profile`, which returns without calling
`launch_profile` when `is_running` holds (or the profile is STARTING). -/
theorem c4_amended (s : LauncherTables) (pid : String) (st : ProfileStatus) (ok : Bool)
    (hrun : is_running s pid = true) (hcount : s.browsers.count pid = 0) :
    app_start_profile s st pid ok = (s, false) ∧
    (launchTablesStep (launchTablesStep s pid) pid).startedCount = s.startedCount + 2 ∧
    (launchTablesStep (launchTablesStep s pid) pid).browsers.count pid = 1 := by
  refine ⟨?_, rfl, ?_⟩
  · rw [app_start_profile, if_pos hrun]
  · have hnotmem : pid ∉ s.browsers := by
      intro hmem
      rw [List.count_eq_zero] at hcount
      exact hcount hmem
    have h1 : keyAdd s.browsers pid = s.browsers ++ [pid] := by
      rw [keyAdd, if_neg hnotmem]
    have hmem2 : pid ∈ s.browsers ++ [pid] := by
      simp
    show (keyAdd (keyAdd s.browsers pid) pid).count pid = 1
    rw [h1, keyAdd, if_pos hmem2, List.count_append]
    simp [hcount]

/-- C4 witness: the amended theorem at a concrete one-session table. -/
theorem c4_witness :
    is_running (LauncherTables.mk ["p1"] ["p1"] ["p1"] 1) "p1" = true ∧
    (LauncherTables.mk ["p1"] ["p1"] ["p1"] 1).browsers.count "p1" ≠ 0 ∧
    (app_start_profile (LauncherTables.mk [] ["p1"] [] 1) ProfileStatus.stopped "p1" true
        = (LauncherTables.mk [] ["p1"] [] 1, false) ∧
      (launchTablesStep (launchTablesStep (LauncherTables.mk [] ["p1"] [] 1) "p1") "p1").startedCount
        = (LauncherTables.mk [] ["p1"] [] 1).startedCount + 2 ∧
      (launchTablesStep (launchTablesStep (LauncherTables.mk [] ["p1"] [] 1) "p1") "p1").browsers.count "p1"
        = 1) :=
  ⟨by decide, by decide,
    c4_amended (LauncherTables.mk [] ["p1"] [] 1) "p1" ProfileStatus.stopped true
      (by decide) (by decide)⟩

/-! ### C5 -/

/-- C5 counterexample: with a corrupted record file (and everything else
healthy), `launch_profile` reports ERROR and returns false instead of treating
the record as absent and regenerating — contradicting the claim that the
launch returns successfully. -/
theorem c5_counterexample :
    (launch_profile true "windows" .corrupt none genSample true).success = false ∧
    (launch_profile true "windows" .corrupt none genSample true).statuses
      = [ProfileStatus.error] ∧
    (launch_profile true "windows" .corrupt none genSample true).stored = .corrupt :=
  ⟨rfl, rfl, rfl⟩

/-- C5 amended: a corrupted (unparseable) record makes `json.loads` raise
inside `launch_profile`'s `try`; the top-level handler absorbs it, reports
ERROR through the callback and returns false.  The record is not treated as
absent: no regeneration happens and the corrupt file stays in place.  The
exception never propagates to the caller (the launch function is total and
returns a result). -/
theorem c5_amended (osType : String) (geo : Option GeoIPInfo) (gen : GenInputs)
    (engineOk : Bool) :
    launch_profile true osType .corrupt geo gen engineOk
      = { success := false, statuses := [ProfileStatus.error], stored := .corrupt } := rfl

/-! ### C6 -/

/-- C6: for every failure during launch setup — the resolve step raising
(corrupt record, user-agent type error) or the engine start/configuration
failing — `launch_profile` invokes the registered status callback with ERROR
and returns false; the exception is absorbed by the top-level handler (the
modelled function is total, so nothing propagates to the caller). -/
theorem c6_failures_reported (osType : String) (file : StoredFile)
    (geo : Option GeoIPInfo) (gen : GenInputs) (engineOk : Bool)
    (hfail : (∃ st, fingerprintStep osType file geo gen = .error st) ∨ engineOk = false) :
    (launch_profile true osType file geo gen engineOk).success = false ∧
    (launch_profile true osType file geo gen engineOk).statuses = [ProfileStatus.error] := by
  rcases hres : fingerprintStep osType file geo gen with st | out
  · rw [launch_profile, hres]
    exact ⟨rfl, rfl⟩
  · have hek : engineOk = false := by
      rcases hfail with ⟨st, hst⟩ | hek
      · rw [hres] at hst
        cases hst
      · exact hek
    rw [launch_profile, hres, hek]
    exact ⟨rfl, rfl⟩

/-- C6 witness: an engine-start failure at a concrete healthy profile. -/
theorem c6_witness :
    ((∃ st, fingerprintStep "windows" (.valid recSample) none genSample = .error st) ∨
      (false : Bool) = false) ∧
    (launch_profile true "windows" (.valid recSample) none genSample false).success = false ∧
    (launch_profile true "windows" (.valid recSample) none genSample false).statuses
      = [ProfileStatus.error] :=
  ⟨Or.inr rfl,
    c6_failures_reported "windows" (.valid recSample) none genSample false (Or.inr rfl)⟩

/-! ### C7 helper lemmas: the resolve step's outcome kind does not depend on
the geo data -/

theorem launch_shape (osType : String) (file : StoredFile) (geo : Option GeoIPInfo)
    (gen : GenInputs) (engineOk : Bool) :
    (∃ st, fingerprintStep osType file geo gen = .error st ∧
      launch_profile true osType file geo gen engineOk
        = { success := false, statuses := [ProfileStatus.error], stored := st }) ∨
    (∃ out, fingerprintStep osType file geo gen = .ok out ∧
      launch_profile true osType file geo gen engineOk
        = if engineOk then
            { success := true, statuses := [ProfileStatus.running], stored := out.stored }
          else
            { success := false, statuses := [ProfileStatus.error], stored := out.stored }) := by
  rcases h : fingerprintStep osType file geo gen with st | out
  · exact Or.inl ⟨st, rfl, by rw [launch_profile, h]; rfl⟩
  · refine Or.inr ⟨out, rfl, ?_⟩
    rw [launch_profile, h]
    cases engineOk <;> rfl

theorem fingerprintStep_err_geo (osType : String) (file : StoredFile) (gen : GenInputs)
    (geo₁ geo₂ : Option GeoIPInfo) (st : StoredFile)
    (h : fingerprintStep osType file geo₁ gen = .error st) :
    fingerprintStep osType file geo₂ gen = .error st := by
  match file with
  | .corrupt => exact h
  | .absent =>
    show generateBranch osType geo₂ gen = .error st
    have h' : generateBranch osType geo₁ gen = .error st := h
    rcases hsc : noiseSet gen "navigator.userAgent" with _ | v
    · rw [generateBranch_ua_none hsc osType geo₁] at h'
      cases h'
    · match v with
      | .str ua =>
        rw [generateBranch_ua_str hsc osType geo₁] at h'
        cases h'
      | .int n =>
        rw [generateBranch_ua_int hsc osType geo₁] at h'
        rw [generateBranch_ua_int hsc osType geo₂]
        exact h'
  | .valid r =>
    by_cases hne : r.os ≠ orWindows osType
    · rw [fingerprintStep_os_change hne geo₁ gen] at h
      rw [fingerprintStep_os_change hne geo₂ gen]
      rcases hsc : noiseSet gen "navigator.userAgent" with _ | v
      · rw [generateBranch_ua_none hsc osType geo₁] at h
        cases h
      · match v with
        | .str ua =>
          rw [generateBranch_ua_str hsc osType geo₁] at h
          cases h
        | .int n =>
          rw [generateBranch_ua_int hsc osType geo₁] at h
          rw [generateBranch_ua_int hsc osType geo₂]
          exact h
    · rw [fingerprintStep, if_neg hne] at h
      cases h

theorem fingerprintStep_ok_geo (osType : String) (file : StoredFile) (gen : GenInputs)
    (geo₁ geo₂ : Option GeoIPInfo)
    (h : ∃ out, fingerprintStep osType file geo₁ gen = .ok out) :
    ∃ out', fingerprintStep osType file geo₂ gen = .ok out' := by
  obtain ⟨out, hout⟩ := h
  rcases h2 : fingerprintStep osType file geo₂ gen with st | out'
  · rw [fingerprintStep_err_geo osType file gen geo₂ geo₁ st h2] at hout
    cases hout
  · exact ⟨out', rfl⟩

theorem launch_statuses_geo (osType : String) (file : StoredFile) (gen : GenInputs)
    (engineOk : Bool) (g : GeoIPInfo) :
    (launch_profile true osType file none gen engineOk).success
      = (launch_profile true osType file (some g) gen engineOk).success ∧
    (launch_profile true osType file none gen engineOk).statuses
      = (launch_profile true osType file (some g) gen engineOk).statuses := by
  rcases launch_shape osType file none gen engineOk with ⟨st, he, hl⟩ | ⟨out, ho, hl⟩
  · have he2 := fingerprintStep_err_geo osType file gen none (some g) st he
    have hl2 : launch_profile true osType file (some g) gen engineOk
        = { success := false, statuses := [ProfileStatus.error], stored := st } := by
      rw [launch_profile, he2]
      rfl
    rw [hl, hl2]
    exact ⟨rfl, rfl⟩
  · obtain ⟨out', ho2⟩ := fingerprintStep_ok_geo osType file gen none (some g) ⟨out, ho⟩
    have hl2 : launch_profile true osType file (some g) gen engineOk
        = if engineOk then
            { success := true, statuses := [ProfileStatus.running], stored := out'.stored }
          else
            { success := false, statuses := [ProfileStatus.error], stored := out'.stored } := by
      rw [launch_profile, ho2]
      cases engineOk <;> rfl
    rw [hl, hl2]
    cases engineOk <;> exact ⟨rfl, rfl⟩

/-! ### C7 -/

/-- C7: a failed geolocation resolution (modelled as `geo = none`, since the
inner `try/except` converts the failure into missing geo data) is non-fatal:
the launch outcome and reported statuses are the same as with any successful
resolution, so the failure is never surfaced to the session state machine.
The geo refresh is merely omitted: in the load branch the six refreshable
locale/timezone/geolocation keys are left unset (deferring to the engine's
defaults), and in the generate branch the config keeps whatever the generator
produced for them. -/
theorem c7_geo_failure_degrades (osType : String) (file : StoredFile) (gen : GenInputs)
    (engineOk : Bool) (g : GeoIPInfo) (r : FpRecord)
    (hos : osType ≠ "") (hros : r.os = osType)
    (hua : noiseSet gen "navigator.userAgent" = none) :
    ((launch_profile true osType file none gen engineOk).success
        = (launch_profile true osType file (some g) gen engineOk).success ∧
      (launch_profile true osType file none gen engineOk).statuses
        = (launch_profile true osType file (some g) gen engineOk).statuses) ∧
    (fingerprintStep osType (.valid r) none gen = .ok (loadBranch r none) ∧
      (loadBranch r none).config "timezone" = none ∧
      (loadBranch r none).config "locale:timezone" = none ∧
      (loadBranch r none).config "geolocation:latitude" = none ∧
      (loadBranch r none).config "geolocation:longitude" = none ∧
      (loadBranch r none).config "locale:region" = none ∧
      (loadBranch r none).config "locale:language" = none) ∧
    (fingerprintStep osType .absent none gen
        = .ok (generateRest osType none gen (noiseSet gen)) ∧
      (generateRest osType none gen (noiseSet gen)).config "timezone"
        = gen.generated "timezone" ∧
      (generateRest osType none gen (noiseSet gen)).config "locale:timezone"
        = gen.generated "locale:timezone" ∧
      (generateRest osType none gen (noiseSet gen)).config "geolocation:latitude"
        = gen.generated "geolocation:latitude" ∧
      (generateRest osType none gen (noiseSet gen)).config "geolocation:longitude"
        = gen.generated "geolocation:longitude" ∧
      (generateRest osType none gen (noiseSet gen)).config "locale:region"
        = gen.generated "locale:region" ∧
      (generateRest osType none gen (noiseSet gen)).config "locale:language"
        = gen.generated "locale:language") := by
  refine ⟨launch_statuses_geo osType file gen engineOk g,
    ⟨fingerprintStep_load hos hros none gen, rfl, rfl, rfl, rfl, rfl, rfl⟩,
    ⟨?_, rfl, rfl, rfl, rfl, rfl, rfl⟩⟩
  show generateBranch osType none gen = _
  exact generateBranch_ua_none hua osType none

/-- C7 witness: the theorem applied at a concrete record and generator. -/
theorem c7_witness :
    ("windows" : String) ≠ "" ∧ recSample.os = "windows" ∧
    noiseSet genSample "navigator.userAgent" = none ∧
    (((launch_profile true "windows" (.valid recSample) none genSample true).success
        = (launch_profile true "windows" (.valid recSample) (some geoSample) genSample true).success ∧
      (launch_profile true "windows" (.valid recSample) none genSample true).statuses
        = (launch_profile true "windows" (.valid recSample) (some geoSample) genSample true).statuses) ∧
    (fingerprintStep "windows" (.valid recSample) none genSample
        = .ok (loadBranch recSample none) ∧
      (loadBranch recSample none).config "timezone" = none ∧
      (loadBranch recSample none).config "locale:timezone" = none ∧
      (loadBranch recSample none).config "geolocation:latitude" = none ∧
      (loadBranch recSample none).config "geolocation:longitude" = none ∧
      (loadBranch recSample none).config "locale:region" = none ∧
      (loadBranch recSample none).config "locale:language" = none) ∧
    (fingerprintStep "windows" .absent none genSample
        = .ok (generateRest "windows" none genSample (noiseSet genSample)) ∧
      (generateRest "windows" none genSample (noiseSet genSample)).config "timezone"
        = genSample.generated "timezone" ∧
      (generateRest "windows" none genSample (noiseSet genSample)).config "locale:timezone"
        = genSample.generated "locale:timezone" ∧
      (generateRest "windows" none genSample (noiseSet genSample)).config "geolocation:latitude"
        = genSample.generated "geolocation:latitude" ∧
      (generateRest "windows" none genSample (noiseSet genSample)).config "geolocation:longitude"
        = genSample.generated "geolocation:longitude" ∧
      (generateRest "windows" none genSample (noiseSet genSample)).config "locale:region"
        = genSample.generated "locale:region" ∧
      (generateRest "windows" none genSample (noiseSet genSample)).config "locale:language"
        = genSample.generated "locale:language")) :=
  ⟨by decide, rfl, rfl,
    c7_geo_failure_degrades "windows" (.valid recSample) genSample true geoSample recSample
      (by decide) rfl rfl⟩

/-! ### C8 -/

/-- Env with a single chunk whose content is `{ }`: valid JSON (no excluded
keys), but not in the compact form `orjson.dumps` emits. -/
def envC8 : Env := { camou := [(1, ['{', ' ', '}'])], other := fun _ => none }

/-- C8 counterexample: the claim quantifies over every chunk sequence whose
concatenation parses as JSON with no excluded keys.  The single chunk `{ }`
parses to the empty object and holds no excluded key, yet the rewrite
re-serializes compactly and emits `{}` — not byte-identical to the input. -/
theorem c8_counterexample :
    orjsonLoads ((collectChunks envC8.camou).flatten) = some (.obj []) ∧
    (∀ k ∈ SCREEN_WINDOW_KEYS_TO_EXCLUDE, fieldGet ([] : List (String × Json)) k = none) ∧
    (remove_screen_window_keys_from_env 32767 envC8).map
      (fun e => (collectChunks e.camou).flatten) = .ok ['{', '}'] ∧
    (['{', '}'] : List Char) ≠ (collectChunks envC8.camou).flatten :=
  ⟨rfl, fun _ _ => rfl, rfl, by decide⟩

/-- C8 amended: for slots holding the canonical compact serialization of an
object (the form the library's serializer emits), the rewrite removes exactly
the excluded keys and nothing else; when no excluded key is present the
reassembled content is byte-identical to the input (only chunk boundaries may
differ) and every slot beyond the new count is cleared.  A merely parseable,
non-canonical chunk sequence (e.g. containing whitespace) is normalized on
re-serialization, so byte-identity holds only for canonical input. -/
theorem c8_round_trip (chunk_size : Nat) (env : Env) (fields : List (String × Json))
    (hcam : env.camou = setSlots [] 1 (chunksOf chunk_size (orjsonDumps (.obj fields)))) :
    ∃ env', remove_screen_window_keys_from_env chunk_size env = .ok env' ∧
      orjsonLoads ((collectChunks env'.camou).flatten)
        = some (.obj (removeScreenWindowKeys fields)) ∧
      (∀ k, fieldGet (removeScreenWindowKeys fields) k
        = if SCREEN_WINDOW_KEYS_TO_EXCLUDE.contains k then none
          else fieldGet fields k) ∧
      ((∀ kv ∈ fields, SCREEN_WINDOW_KEYS_TO_EXCLUDE.contains kv.1 = false) →
        (collectChunks env'.camou).flatten = (collectChunks env.camou).flatten) ∧
      (∀ j, (chunksOf chunk_size
          (orjsonDumps (.obj (removeScreenWindowKeys fields)))).length < j →
        slotGet env'.camou j = none) := by
  refine ⟨_, remove_env_spec chunk_size env fields hcam, ?_, ?_, ?_, ?_⟩
  · show orjsonLoads ((collectChunks (setSlots [] 1 _)).flatten) = _
    rw [collect_fresh, chunksOf_flatten, orjsonLoads_dumps]
  · intro k
    exact fieldGet_remove fields k
  · intro hnone
    show (collectChunks (setSlots [] 1 _)).flatten = _
    rw [collect_fresh, chunksOf_flatten, hcam, collect_fresh, chunksOf_flatten,
      removeScreenWindowKeys_id fields hnone]
  · intro j hj
    show slotGet (setSlots [] 1 _) j = none
    rw [slotGet_setSlots, if_neg (by omega), slotGet]

/-- C8 witness: the amended theorem at a concrete env holding the canonical
serialization of a one-key object, chunked at size 4. -/
theorem c8_witness :
    (Env.mk (setSlots [] 1 (chunksOf 4 (orjsonDumps (.obj [("a", .str "b")]))))
        (fun _ => none)).camou
      = setSlots [] 1 (chunksOf 4 (orjsonDumps (.obj [("a", .str "b")]))) ∧
    ∃ env', remove_screen_window_keys_from_env 4
        (Env.mk (setSlots [] 1 (chunksOf 4 (orjsonDumps (.obj [("a", .str "b")]))))
          (fun _ => none)) = .ok env' ∧
      orjsonLoads ((collectChunks env'.camou).flatten)
        = some (.obj (removeScreenWindowKeys [("a", .str "b")])) ∧
      (∀ k, fieldGet (removeScreenWindowKeys [("a", .str "b")]) k
        = if SCREEN_WINDOW_KEYS_TO_EXCLUDE.contains k then none
          else fieldGet [("a", .str "b")] k) ∧
      ((∀ kv ∈ [(("a" : String), Json.str "b")],
          SCREEN_WINDOW_KEYS_TO_EXCLUDE.contains kv.1 = false) →
        (collectChunks env'.camou).flatten
          = (collectChunks (Env.mk (setSlots [] 1 (chunksOf 4 (orjsonDumps
              (.obj [("a", .str "b")])))) (fun _ => none)).camou).flatten) ∧
      (∀ j, (chunksOf 4
          (orjsonDumps (.obj (removeScreenWindowKeys [("a", .str "b")])))).length < j →
        slotGet env'.camou j = none) :=
  ⟨rfl, c8_round_trip 4 _ [("a", .str "b")] rfl⟩

/-! ### C9 -/

/-- C9: the GUI's `_stop_profile` (app.py line 815) begins by calling
`self.launcher.is_stopping(profile.id)`, but `BrowserLauncher` defines no
`is_stopping` method (only `is_running` exists) and `ProfileStatus` has no
STOPPING member — so the first statement of every stop request raises
`AttributeError`.  The claim matches the spec and the caller's expectation;
the launcher code is missing the method and the transitional state. -/
theorem c9_is_stopping_missing :
    app_stop_profile_first_step = .error "AttributeError" ∧
    getattrLauncher "is_running" = .ok () ∧
    browserLauncherMethods.contains "is_stopping" = false ∧
    (∀ s : ProfileStatus,
      s = .stopped ∨ s = .starting ∨ s = .running ∨ s = .error) := by
  refine ⟨rfl, rfl, rfl, ?_⟩
  intro s
  cases s
  · exact Or.inl rfl
  · exact Or.inr (Or.inl rfl)
  · exact Or.inr (Or.inr (Or.inl rfl))
  · exact Or.inr (Or.inr (Or.inr rfl))

/-! ### C10 -/

/-- C10: when geolocation resolution succeeds but latitude or longitude is 0
or missing (Python-falsy), both branches write the fresh timezone, locale
region and language into the outgoing config, yet omit the
`geolocation:latitude`/`geolocation:longitude` keys entirely, because the code
guards them with a truthiness test on both coordinates. -/
theorem c10_zero_coordinate_guard (osType : String) (r : FpRecord) (g : GeoIPInfo)
    (gen : GenInputs) (hos : osType ≠ "") (hros : r.os = osType)
    (hzero : pyTruthy g.lat = false ∨ pyTruthy g.lon = false)
    (hgenlat : gen.generated "geolocation:latitude" = none)
    (hgenlon : gen.generated "geolocation:longitude" = none)
    (hua : noiseSet gen "navigator.userAgent" = none) :
    (fingerprintStep osType (.valid r) (some g) gen = .ok (loadBranch r (some g)) ∧
      (loadBranch r (some g)).config "timezone" = some (.str g.timezone) ∧
      (loadBranch r (some g)).config "locale:region" = some (.str g.country_code) ∧
      (loadBranch r (some g)).config "locale:language"
        = some (.str (countryToLang g.country_code)) ∧
      (loadBranch r (some g)).config "geolocation:latitude" = none ∧
      (loadBranch r (some g)).config "geolocation:longitude" = none) ∧
    (fingerprintStep osType .absent (some g) gen
        = .ok (generateRest osType (some g) gen (noiseSet gen)) ∧
      (generateRest osType (some g) gen (noiseSet gen)).config "timezone"
        = some (.str g.timezone) ∧
      (generateRest osType (some g) gen (noiseSet gen)).config "locale:region"
        = some (.str g.country_code) ∧
      (generateRest osType (some g) gen (noiseSet gen)).config "locale:language"
        = some (.str (countryToLang g.country_code)) ∧
      (generateRest osType (some g) gen (noiseSet gen)).config "geolocation:latitude"
        = none ∧
      (generateRest osType (some g) gen (noiseSet gen)).config "geolocation:longitude"
        = none) := by
  have hcond : (pyTruthy g.lat && pyTruthy g.lon) = false := by
    rcases hzero with h | h <;> simp [h]
  have hload : ∀ k, (loadBranch r (some g)).config k
      = (cfgSet (cfgSet (cfgSet (cfgDelExcluded (applyGeo g (cfgPop (cfgPop (cfgPop (cfgPop
          (cfgPop (cfgPop r.fingerprint "locale:timezone") "timezone")
          "geolocation:latitude") "geolocation:longitude") "locale:region")
          "locale:language"))) "canvas:aaOffset" (.int r.canvasAaOffset))
          "fonts:spacing_seed" (.int r.fontsSpacingSeed))
          "window.history.length" (.int r.historyLength)) k := fun k => rfl
  have hgenc : ∀ k, (generateRest osType (some g) gen (noiseSet gen)).config k
      = cfgDelExcluded (applyGeo g (noiseSet gen)) k := fun k => rfl
  rw [applyGeo_no_coords g _ hcond] at hload
  rw [applyGeo_no_coords g _ hcond] at hgenc
  refine ⟨⟨fingerprintStep_load hos hros (some g) gen, ?_, ?_, ?_, ?_, ?_⟩,
    ⟨?_, ?_, ?_, ?_, ?_, ?_⟩⟩
  · rw [hload]; rfl
  · rw [hload]; rfl
  · rw [hload]; rfl
  · rw [hload]; rfl
  · rw [hload]; rfl
  · show generateBranch osType (some g) gen = _
    exact generateBranch_ua_none hua osType (some g)
  · rw [hgenc]; rfl
  · rw [hgenc]; rfl
  · rw [hgenc]; rfl
  · rw [hgenc]
    show noiseSet gen "geolocation:latitude" = none
    show gen.generated "geolocation:latitude" = none
    exact hgenlat
  · rw [hgenc]
    show gen.generated "geolocation:longitude" = none
    exact hgenlon

/-- C10 witness: a resolution whose latitude is exactly 0 (Python-falsy). -/
theorem c10_witness :
    ("windows" : String) ≠ "" ∧ recSample.os = "windows" ∧
    (pyTruthy (GeoIPInfo.mk "203.0.113.9" "PL" "Europe/Warsaw" (some 0) (some 21)).lat = false ∨
      pyTruthy (GeoIPInfo.mk "203.0.113.9" "PL" "Europe/Warsaw" (some 0) (some 21)).lon = false) ∧
    genSample.generated "geolocation:latitude" = none ∧
    genSample.generated "geolocation:longitude" = none ∧
    noiseSet genSample "navigator.userAgent" = none ∧
    ((fingerprintStep "windows" (.valid recSample)
        (some (GeoIPInfo.mk "203.0.113.9" "PL" "Europe/Warsaw" (some 0) (some 21))) genSample
        = .ok (loadBranch recSample
            (some (GeoIPInfo.mk "203.0.113.9" "PL" "Europe/Warsaw" (some 0) (some 21)))) ∧
      (loadBranch recSample
          (some (GeoIPInfo.mk "203.0.113.9" "PL" "Europe/Warsaw" (some 0) (some 21)))).config
          "timezone" = some (.str "Europe/Warsaw") ∧
      (loadBranch recSample
          (some (GeoIPInfo.mk "203.0.113.9" "PL" "Europe/Warsaw" (some 0) (some 21)))).config
          "locale:region" = some (.str "PL") ∧
      (loadBranch recSample
          (some (GeoIPInfo.mk "203.0.113.9" "PL" "Europe/Warsaw" (some 0) (some 21)))).config
          "locale:language" = some (.str (countryToLang "PL")) ∧
      (loadBranch recSample
          (some (GeoIPInfo.mk "203.0.113.9" "PL" "Europe/Warsaw" (some 0) (some 21)))).config
          "geolocation:latitude" = none ∧
      (loadBranch recSample
          (some (GeoIPInfo.mk "203.0.113.9" "PL" "Europe/Warsaw" (some 0) (some 21)))).config
          "geolocation:longitude" = none) ∧
    (fingerprintStep "windows" .absent
        (some (GeoIPInfo.mk "203.0.113.9" "PL" "Europe/Warsaw" (some 0) (some 21))) genSample
        = .ok (generateRest "windows"
            (some (GeoIPInfo.mk "203.0.113.9" "PL" "Europe/Warsaw" (some 0) (some 21)))
            genSample (noiseSet genSample)) ∧
      (generateRest "windows"
          (some (GeoIPInfo.mk "203.0.113.9" "PL" "Europe/Warsaw" (some 0) (some 21)))
          genSample (noiseSet genSample)).config "timezone" = some (.str "Europe/Warsaw") ∧
      (generateRest "windows"
          (some (GeoIPInfo.mk "203.0.113.9" "PL" "Europe/Warsaw" (some 0) (some 21)))
          genSample (noiseSet genSample)).config "locale:region" = some (.str "PL") ∧
      (generateRest "windows"
          (some (GeoIPInfo.mk "203.0.113.9" "PL" "Europe/Warsaw" (some 0) (some 21)))
          genSample (noiseSet genSample)).config "locale:language"
        = some (.str (countryToLang "PL")) ∧
      (generateRest "windows"
          (some (GeoIPInfo.mk "203.0.113.9" "PL" "Europe/Warsaw" (some 0) (some 21)))
          genSample (noiseSet genSample)).config "geolocation:latitude" = none ∧
      (generateRest "windows"
          (some (GeoIPInfo.mk "203.0.113.9" "PL" "Europe/Warsaw" (some 0) (some 21)))
          genSample (noiseSet genSample)).config "geolocation:longitude" = none)) :=
  ⟨by decide, rfl, Or.inl rfl, rfl, rfl, rfl,
    c10_zero_coordinate_guard "windows" recSample
      (GeoIPInfo.mk "203.0.113.9" "PL" "Europe/Warsaw" (some 0) (some 21)) genSample
      (by decide) rfl (Or.inl rfl) rfl rfl rfl⟩
